import Mathlib

/-!
Verification development for the KUKA RSI communication library
(`src/kuka_rsi.c`).  The C code is shallowly embedded: C strings become
`List Char`, doubles become `ℚ` (the rationals-for-doubles abstraction;
rendering with `%.4f` and parsing with `atof` are modelled exactly on the
decimal level), machine integers become `ℕ` with explicit `% 2 ^ w` where
a narrowing cast occurs, and the global context plus the callback side
effects of the worker become explicit state passing with an event list.
Clock reads (`get_time_us`) and the result of `sendto` are exogenous and
enter as parameters.
-/

set_option maxRecDepth 8000

attribute [local semireducible] Rat.inv Rat.mul Rat.add Rat.sub

namespace KukaRSI

/-- Byte string of a literal. -/
def lit (s : String) : List Char := s.data

/-- Model of C `strstr`: returns the suffix of the haystack starting at the
first occurrence of the pattern, or `none` ( `NULL` ) when absent. -/
def strstr (pat : List Char) : List Char → Option (List Char)
  | [] => if pat = [] then some [] else none
  | c :: t => if pat.isPrefixOf (c :: t) then some (c :: t) else strstr pat t

/-- XML tag constant `TAG_IPOC_START` from the source. -/
def TAG_IPOC_START : List Char := lit "<IPOC>"

/-- XML tag constant `TAG_IPOC_END` from the source. -/
def TAG_IPOC_END : List Char := lit "</IPOC>"

/-- XML tag constant `TAG_RIST_START` from the source. -/
def TAG_RIST_START : List Char := lit "<RIst"

/-- XML tag constant `TAG_AIPOS_START` from the source. -/
def TAG_AIPOS_START : List Char := lit "<AIPos"

/-- Model of `extract_ipoc` (kuka_rsi.c lines 131-150), string part: locate
`<IPOC>`, locate the following `</IPOC>`, copy the bytes in between into a
buffer of `bufSize` bytes, clamping the copied length to `bufSize - 1`.
Returns the copied bytes, or `none` when either tag is missing. -/
def extract_ipoc (bufSize : ℕ) (xml : List Char) : Option (List Char) :=
  match strstr TAG_IPOC_START xml with
  | none => none
  | some s =>
    let startPos := s.drop TAG_IPOC_START.length
    match strstr TAG_IPOC_END startPos with
    | none => none
    | some e =>
      let len0 := startPos.length - e.length
      let len := if bufSize ≤ len0 then bufSize - 1 else len0
      some (startPos.take len)

/-- C `isspace` on the default locale. -/
def isSpaceC (c : Char) : Bool :=
  c = ' ' || c = '\t' || c = '\n' || c = '\x0b' || c = '\x0c' || c = '\x0d'

/-- Numeric value of an ASCII digit. -/
def digitVal (c : Char) : ℕ := c.toNat - 48

/-- Value of a most-significant-first ASCII digit string. -/
def digitsVal (ds : List Char) : ℕ := ds.foldl (fun a c => a * 10 + digitVal c) 0

/-- Optional sign at the head of a number. -/
def atofSign (l : List Char) : ℚ × List Char :=
  match l with
  | [] => (1, [])
  | c :: t => if c = '-' then (-1, t) else if c = '+' then (1, t) else (1, c :: t)

/-- Optional fractional part: a dot followed by digits. -/
def atofFrac (l : List Char) : List Char × List Char :=
  match l with
  | [] => ([], [])
  | c :: t => if c = '.' then (t.takeWhile Char.isDigit, t.dropWhile Char.isDigit) else ([], c :: t)

/-- Signed digit string after `e` / `E`. -/
def atofExpVal (l : List Char) : ℤ :=
  let s : ℤ × List Char :=
    match l with
    | [] => (1, [])
    | c :: t => if c = '-' then (-1, t) else if c = '+' then (1, t) else (1, c :: t)
  s.1 * (digitsVal (s.2.takeWhile Char.isDigit) : ℤ)

/-- Optional exponent part accepted by `atof`.  An exponent without digits
contributes 0, matching `strtod`, which then does not consume it. -/
def atofExpPart (l : List Char) : ℤ :=
  match l with
  | [] => 0
  | c :: t => if c = 'e' ∨ c = 'E' then atofExpVal t else 0

/-- Ten to an integer power, as a rational. -/
def pow10z : ℤ → ℚ
  | .ofNat n => ((10 ^ n : ℕ) : ℚ)
  | .negSucc n => 1 / ((10 ^ (n + 1) : ℕ) : ℚ)

/-- Digits, fraction and exponent of a number, after sign processing. -/
def atofAfterSign (sgn : ℚ) (l : List Char) : ℚ :=
  sgn * ((digitsVal (l.takeWhile Char.isDigit) : ℚ)
      + (digitsVal (atofFrac (l.dropWhile Char.isDigit)).1 : ℚ)
        / ((10 ^ (atofFrac (l.dropWhile Char.isDigit)).1.length : ℕ) : ℚ))
    * pow10z (atofExpPart (atofFrac (l.dropWhile Char.isDigit)).2)

/-- Model of C `atof` / `strtod` (exactly, on the decimal level): skip
whitespace, optional sign, integer digits, optional fraction, optional
exponent; returns 0 when no digits are found. -/
def atof (l : List Char) : ℚ :=
  atofAfterSign (atofSign (l.dropWhile isSpaceC)).1 (atofSign (l.dropWhile isSpaceC)).2

/-- Model of `strtoul(s, NULL, 10)` (unsigned long, 64 bits): skip
whitespace, optional sign, digits; clamp to `ULONG_MAX` on overflow; a
leading minus negates modulo `2 ^ 64`. -/
def strtoul10 (l : List Char) : ℕ :=
  let l1 := l.dropWhile isSpaceC
  let (neg, l2) : Bool × List Char :=
    match l1 with
    | '-' :: t => (true, t)
    | '+' :: t => (false, t)
    | _ => (false, l1)
  let v0 := digitsVal (l2.takeWhile Char.isDigit)
  let v := if 2 ^ 64 ≤ v0 then 2 ^ 64 - 1 else v0
  if neg then (2 ^ 64 - v) % 2 ^ 64 else v

/-- The `(uint32_t)strtoul(ipoc_buffer, NULL, 10)` cast in `extract_ipoc`. -/
def ipocValue32 (l : List Char) : ℕ := strtoul10 l % 2 ^ 32

/-- Model of `parse_position_attr` (kuka_rsi.c lines 155-164): find
`NAME="` and read a floating-point prefix of what follows; 0.0 when the
attribute is missing. -/
def parse_position_attr (xml : List Char) (attr : List Char) : ℚ :=
  let searchStr := attr ++ lit "=\""
  match strstr searchStr xml with
  | none => 0
  | some s => atof (s.drop searchStr.length)

/-- Model of `parse_cartesian_position` (kuka_rsi.c lines 169-182): locate
`<RIst`, then read attributes `X` … `C` from that point on; `none` when the
tag is missing (the position struct is then not written). -/
def parse_cartesian_position (xml : List Char) : Option (ℚ × ℚ × ℚ × ℚ × ℚ × ℚ) :=
  match strstr TAG_RIST_START xml with
  | none => none
  | some s =>
    some (parse_position_attr s (lit "X"), parse_position_attr s (lit "Y"),
          parse_position_attr s (lit "Z"), parse_position_attr s (lit "A"),
          parse_position_attr s (lit "B"), parse_position_attr s (lit "C"))

/-- Model of `parse_joint_position` (kuka_rsi.c lines 187-200): locate
`<AIPos`, then read attributes `A1` … `A6`. -/
def parse_joint_position (xml : List Char) : Option (ℚ × ℚ × ℚ × ℚ × ℚ × ℚ) :=
  match strstr TAG_AIPOS_START xml with
  | none => none
  | some s =>
    some (parse_position_attr s (lit "A1"), parse_position_attr s (lit "A2"),
          parse_position_attr s (lit "A3"), parse_position_attr s (lit "A4"),
          parse_position_attr s (lit "A5"), parse_position_attr s (lit "A6"))

/-- Decimal digit to ASCII. -/
def digitChar : ℕ → Char
  | 0 => '0' | 1 => '1' | 2 => '2' | 3 => '3' | 4 => '4'
  | 5 => '5' | 6 => '6' | 7 => '7' | 8 => '8' | 9 => '9'
  | _ => '*'

/-- Decimal digits of `n`, most significant first; `fuel` bounds the
recursion depth and any `fuel ≥ n` is sufficient. -/
def natDecAux : ℕ → ℕ → List Char
  | _, 0 => []
  | 0, _ + 1 => []
  | fuel + 1, n + 1 =>
    natDecAux fuel ((n + 1) / 10) ++ [digitChar ((n + 1) % 10)]

/-- Decimal rendering of a natural number, most significant digit first,
at least one digit (as `printf` emits). -/
def natDec (n : ℕ) : List Char :=
  if n = 0 then ['0'] else natDecAux n n

/-- Four-digit zero-padded rendering of `f < 10000`. -/
def pad4 (f : ℕ) : List Char :=
  [digitChar (f / 1000 % 10), digitChar (f / 100 % 10),
   digitChar (f / 10 % 10), digitChar (f % 10)]

/-- Magnitude of a rational. -/
def ratAbs (q : ℚ) : ℚ := if q < 0 then -q else q

/-- Magnitude of `q` scaled by `10 ^ 4` and rounded to the nearest integer
(ties away from zero), the quantity `%.4f` prints. -/
def scaled4 (q : ℚ) : ℕ := (Rat.floor (ratAbs q * 10000 + 1 / 2)).toNat

/-- Model of `printf "%.4f"` on the rationals-for-doubles abstraction:
optional minus sign, integer part, dot, exactly four fractional digits. -/
def fmtFixed4 (q : ℚ) : List Char :=
  (if q < 0 then ['-'] else []) ++ natDec (scaled4 q / 10000) ++ '.' :: pad4 (scaled4 q % 10000)

/-- The value `%.4f` denotes: `q` rounded to four decimal places (ties away
from zero). -/
def round4 (q : ℚ) : ℚ :=
  (if q < 0 then (-1 : ℚ) else 1) * (scaled4 q : ℚ) / 10000

/-- Fixed template text before the `X` correction value. -/
def RESP_PRE : List Char := lit "<Sen Type=\"ImFree\">\n<EStr>RSI Monitor</EStr>\n<RKorr X=\""

/-- Template text between the `X` and `Y` correction values. -/
def SEP_Y : List Char := lit "\" Y=\""

/-- Template text between the `Y` and `Z` correction values. -/
def SEP_Z : List Char := lit "\" Z=\""

/-- Template text between the `Z` and `A` correction values. -/
def SEP_A : List Char := lit "\" A=\""

/-- Template text between the `A` and `B` correction values. -/
def SEP_B : List Char := lit "\" B=\""

/-- Template text between the `B` and `C` correction values. -/
def SEP_C : List Char := lit "\" C=\""

/-- Template text between the `C` correction value and the echoed IPOC. -/
def SEP_IPOC : List Char := lit "\" />\n<IPOC>"

/-- Template text after the echoed IPOC. -/
def RESP_SUF : List Char := lit "</IPOC>\n</Sen>"

/-- Correction deltas, `RSI_CartesianCorrection` from kuka_rsi.h. -/
structure RSI_CartesianCorrection where
  x : ℚ
  y : ℚ
  z : ℚ
  a : ℚ
  b : ℚ
  c : ℚ
deriving DecidableEq

/-- The all-zero correction, the `Init`-time default. -/
def zeroCorrection : RSI_CartesianCorrection := ⟨0, 0, 0, 0, 0, 0⟩

/-- The rendered response text of `RESPONSE_TEMPLATE` filled by `snprintf`
with the six correction values and the echoed IPOC bytes. -/
def renderResponse (ipoc : List Char) (k : RSI_CartesianCorrection) : List Char :=
  RESP_PRE ++ fmtFixed4 k.x ++ SEP_Y ++ fmtFixed4 k.y ++ SEP_Z ++ fmtFixed4 k.z ++
    SEP_A ++ fmtFixed4 k.a ++ SEP_B ++ fmtFixed4 k.b ++ SEP_C ++ fmtFixed4 k.c ++
    SEP_IPOC ++ ipoc ++ RESP_SUF

/-- Everything in the rendered response that precedes the `<IPOC>` tag. -/
def korrPrefix (k : RSI_CartesianCorrection) : List Char :=
  RESP_PRE ++ fmtFixed4 k.x ++ SEP_Y ++ fmtFixed4 k.y ++ SEP_Z ++ fmtFixed4 k.z ++
    SEP_A ++ fmtFixed4 k.a ++ SEP_B ++ fmtFixed4 k.b ++ SEP_C ++ fmtFixed4 k.c ++
    lit "\" />\n"

/-- Model of `generate_response` (kuka_rsi.c lines 205-216): `snprintf` into
a `RESPONSE_BUFFER_SIZE = 512` byte buffer; a would-be length of 512 or more
makes the function return 0, which the caller treats as no response. -/
def generate_response (ipoc : List Char) (k : RSI_CartesianCorrection) : Option (List Char) :=
  let s := renderResponse ipoc k
  if s.length < 512 then some s else none

/-- Error codes `RSI_Error` from kuka_rsi.h. -/
inductive RSI_Error where
  | RSI_SUCCESS
  | RSI_ERROR_INIT_FAILED
  | RSI_ERROR_ALREADY_RUNNING
  | RSI_ERROR_NOT_RUNNING
  | RSI_ERROR_SOCKET_FAILED
  | RSI_ERROR_THREAD_FAILED
  | RSI_ERROR_INVALID_PARAM
  | RSI_ERROR_TIMEOUT
  | RSI_ERROR_UNKNOWN
deriving DecidableEq

export RSI_Error (RSI_SUCCESS RSI_ERROR_INIT_FAILED RSI_ERROR_ALREADY_RUNNING
  RSI_ERROR_NOT_RUNNING RSI_ERROR_SOCKET_FAILED RSI_ERROR_THREAD_FAILED
  RSI_ERROR_INVALID_PARAM)

/-- Configuration, `RSI_Config` from kuka_rsi.h. -/
structure RSI_Config where
  local_ip : List Char
  local_port : ℕ
  timeout_ms : ℕ
  verbose : Bool
deriving DecidableEq

/-- The defaults installed by `RSI_Init` when `config` is `NULL`. -/
def defaultConfig : RSI_Config :=
  { local_ip := lit "0.0.0.0", local_port := 59152, timeout_ms := 1000, verbose := false }

/-- Cartesian position, `RSI_CartesianPosition` from kuka_rsi.h. -/
structure RSI_CartesianPosition where
  x : ℚ
  y : ℚ
  z : ℚ
  a : ℚ
  b : ℚ
  c : ℚ
  timestamp_us : ℕ
  ipoc : ℕ
deriving DecidableEq

/-- Joint position, `RSI_JointPosition` from kuka_rsi.h (`axis[6]`). -/
structure RSI_JointPosition where
  axis0 : ℚ
  axis1 : ℚ
  axis2 : ℚ
  axis3 : ℚ
  axis4 : ℚ
  axis5 : ℚ
  timestamp_us : ℕ
  ipoc : ℕ
deriving DecidableEq

/-- Statistics, `RSI_Statistics` from kuka_rsi.h. -/
structure RSI_Statistics where
  packets_received : ℕ
  packets_sent : ℕ
  avg_response_time_ms : ℚ
  min_response_time_ms : ℚ
  max_response_time_ms : ℚ
  late_responses : ℕ
  connection_lost_count : ℕ
  is_connected : Bool
  last_packet_timestamp_us : ℕ
deriving DecidableEq

/-- The zeroed statistics block (`memset` in `RSI_Init`). -/
def zeroStats : RSI_Statistics :=
  { packets_received := 0, packets_sent := 0, avg_response_time_ms := 0,
    min_response_time_ms := 0, max_response_time_ms := 0, late_responses := 0,
    connection_lost_count := 0, is_connected := false, last_packet_timestamp_us := 0 }

/-- The global context `RSI_Context`.  Callback function pointers are
modelled by presence flags; socket and thread handles carry no observable
state at this abstraction. -/
structure RSI_Context where
  initialized : Bool
  running : Bool
  config : RSI_Config
  hasDataCb : Bool
  hasConnCb : Bool
  cartesian : RSI_CartesianPosition
  joints : RSI_JointPosition
  correction : RSI_CartesianCorrection
  stats : RSI_Statistics
deriving DecidableEq

/-- The zeroed cartesian position. -/
def zeroCart : RSI_CartesianPosition := ⟨0, 0, 0, 0, 0, 0, 0, 0⟩

/-- The zeroed joint position. -/
def zeroJoints : RSI_JointPosition := ⟨0, 0, 0, 0, 0, 0, 0, 0⟩

/-- The all-zero context, the static initial value of `g_context`. -/
def emptyContext : RSI_Context :=
  { initialized := false, running := false,
    config := { local_ip := [], local_port := 0, timeout_ms := 0, verbose := false },
    hasDataCb := false, hasConnCb := false,
    cartesian := zeroCart, joints := zeroJoints,
    correction := zeroCorrection, stats := zeroStats }

/-- Observable callback invocations made by the worker. -/
inductive Event where
  | conn (connected : Bool)
  | data (cart : RSI_CartesianPosition) (joints : RSI_JointPosition)
deriving DecidableEq

/-- The statistics update at the end of `process_packet` (kuka_rsi.c lines
280-314): `packets_sent` increments exactly when a response was generated
(`sendto`'s result is never inspected); `packets_received` increments; the
running mean, the min (with the `min == 0.0` re-seed clause), the max and
the late counter are updated from the processing time `t` in ms. -/
def stats_update (s : RSI_Statistics) (respSome : Bool) (t : ℚ) (tEnd : ℕ) : RSI_Statistics :=
  { s with
    packets_received := s.packets_received + 1,
    packets_sent := if respSome then s.packets_sent + 1 else s.packets_sent,
    last_packet_timestamp_us := tEnd,
    avg_response_time_ms :=
      (s.avg_response_time_ms * (((s.packets_received + 1 : ℕ) : ℚ) - 1) + t)
        / ((s.packets_received + 1 : ℕ) : ℚ),
    min_response_time_ms :=
      if t < s.min_response_time_ms ∨ s.min_response_time_ms = 0 then t
      else s.min_response_time_ms,
    max_response_time_ms :=
      if s.max_response_time_ms < t then t else s.max_response_time_ms,
    late_responses := if 4 < t then s.late_responses + 1 else s.late_responses }

/-- The invariant the statistics aggregates keep when every processing time
is strictly positive. -/
def StatsInv (s : RSI_Statistics) : Prop :=
  0 < s.min_response_time_ms ∧
  (s.packets_received = 0 →
    s.min_response_time_ms = 9999 ∧ s.max_response_time_ms = 0) ∧
  (1 ≤ s.packets_received →
    s.min_response_time_ms ≤ s.avg_response_time_ms ∧
    s.avg_response_time_ms ≤ s.max_response_time_ms)

/-- Model of `process_packet` (kuka_rsi.c lines 221-315).  Inputs beyond the
datagram bytes are the exogenous clock reads (`tStart` and `tEnd` for the
`get_time_us` calls bracketing the cycle, `tP` for the parse timestamps) and
the result of `sendto` (`sendOk`) — which the C code never inspects.
Returns the new context, the callback invocations, and the datagram passed
to `sendto` (if any). -/
def process_packet (ctx : RSI_Context) (data : List Char) (tStart tP tEnd : ℕ)
    (sendOk : Bool) : RSI_Context × List Event × Option (List Char) :=
  let stats0 := ctx.stats
  let connUpd := stats0.is_connected = false
  let stats1 := if connUpd then { stats0 with is_connected := true } else stats0
  let ev1 := if connUpd ∧ ctx.hasConnCb then [Event.conn true] else []
  let ctx1 := { ctx with stats := stats1 }
  match extract_ipoc 32 data with
  | none => (ctx1, ev1, none)
  | some buf =>
    let ipocVal := ipocValue32 buf
    let cartRes := parse_cartesian_position data
    let jointRes := parse_joint_position data
    let cart1 :=
      match cartRes with
      | some (x, y, z, a, b, c) =>
        { ctx1.cartesian with
            x := x, y := y, z := z, a := a, b := b, c := c, timestamp_us := tP }
      | none => ctx1.cartesian
    let joints1 :=
      match jointRes with
      | some (a1, a2, a3, a4, a5, a6) =>
        { ctx1.joints with
            axis0 := a1, axis1 := a2, axis2 := a3, axis3 := a4, axis4 := a5,
            axis5 := a6, timestamp_us := tP }
      | none => ctx1.joints
    let cart2 := { cart1 with ipoc := ipocVal }
    let joints2 := { joints1 with ipoc := ipocVal }
    let resp := generate_response buf ctx1.correction
    let ev2 :=
      if ctx.hasDataCb ∧ cartRes.isSome ∧ jointRes.isSome then [Event.data cart2 joints2]
      else []
    let stats2 := stats_update stats1 resp.isSome (((tEnd - tStart : ℕ) : ℚ) / 1000) tEnd
    ({ ctx1 with cartesian := cart2, joints := joints2, stats := stats2 }, ev1 ++ ev2, resp)

/-- One inbound datagram together with its exogenous inputs. -/
structure PktIn where
  data : List Char
  tStart : ℕ
  tP : ℕ
  tEnd : ℕ
  sendOk : Bool
deriving DecidableEq

/-- Repeated worker cycles: process each datagram in order, collecting the
emitted replies. -/
def runPackets (ctx : RSI_Context) : List PktIn → RSI_Context × List (List Char)
  | [] => (ctx, [])
  | p :: ps =>
    let r := process_packet ctx p.data p.tStart p.tP p.tEnd p.sendOk
    let rest := runPackets r.1 ps
    (rest.1, (match r.2.2 with | some x => [x] | none => []) ++ rest.2)

/-- Model of `RSI_Init` (kuka_rsi.c lines 568-602): reject when already
initialized, zero the context, seed `min_response_time_ms` with 9999.0,
install the given or the default configuration. -/
def RSI_Init (ctx : RSI_Context) (config : Option RSI_Config) : RSI_Error × RSI_Context :=
  if ctx.initialized then (RSI_ERROR_ALREADY_RUNNING, ctx)
  else
    (RSI_SUCCESS,
      { emptyContext with
        stats := { zeroStats with min_response_time_ms := 9999 },
        config := config.getD defaultConfig,
        initialized := true })

/-- Model of `RSI_SetCallbacks` (kuka_rsi.c lines 604-620). -/
def RSI_SetCallbacks (ctx : RSI_Context) (hasData hasConn : Bool) : RSI_Error × RSI_Context :=
  if ctx.initialized = false then (RSI_ERROR_INIT_FAILED, ctx)
  else if ctx.running then (RSI_ERROR_ALREADY_RUNNING, ctx)
  else (RSI_SUCCESS, { ctx with hasDataCb := hasData, hasConnCb := hasConn })

/-- Model of `RSI_Start` (kuka_rsi.c lines 622-674); socket and thread
creation are exogenous (`sockOk`, `threadOk`). -/
def RSI_Start (ctx : RSI_Context) (sockOk threadOk : Bool) : RSI_Error × RSI_Context :=
  if ctx.initialized = false then (RSI_ERROR_INIT_FAILED, ctx)
  else if ctx.running then (RSI_ERROR_ALREADY_RUNNING, ctx)
  else if sockOk = false then (RSI_ERROR_SOCKET_FAILED, ctx)
  else if threadOk = false then (RSI_ERROR_THREAD_FAILED, ctx)
  else (RSI_SUCCESS, { ctx with running := true })

/-- Model of `RSI_Stop` (kuka_rsi.c lines 676-708). -/
def RSI_Stop (ctx : RSI_Context) : RSI_Error × RSI_Context :=
  if ctx.initialized = false then (RSI_ERROR_INIT_FAILED, ctx)
  else if ctx.running = false then (RSI_ERROR_NOT_RUNNING, ctx)
  else (RSI_SUCCESS, { ctx with running := false })

/-- Model of `RSI_GetCartesianPosition` (kuka_rsi.c lines 741-773); the
`NULL`-ness of the out pointer is the `ptrOk` flag. -/
def RSI_GetCartesianPosition (ctx : RSI_Context) (ptrOk : Bool) :
    RSI_Error × RSI_Context × Option RSI_CartesianPosition :=
  if ctx.initialized = false then (RSI_ERROR_INIT_FAILED, ctx, none)
  else if ctx.running = false then (RSI_ERROR_NOT_RUNNING, ctx, none)
  else if ptrOk = false then (RSI_ERROR_INVALID_PARAM, ctx, none)
  else (RSI_SUCCESS, ctx, some ctx.cartesian)

/-- Model of `RSI_GetJointPosition` (kuka_rsi.c lines 775-807). -/
def RSI_GetJointPosition (ctx : RSI_Context) (ptrOk : Bool) :
    RSI_Error × RSI_Context × Option RSI_JointPosition :=
  if ctx.initialized = false then (RSI_ERROR_INIT_FAILED, ctx, none)
  else if ctx.running = false then (RSI_ERROR_NOT_RUNNING, ctx, none)
  else if ptrOk = false then (RSI_ERROR_INVALID_PARAM, ctx, none)
  else (RSI_SUCCESS, ctx, some ctx.joints)

/-- Model of `RSI_SetCartesianCorrection` (kuka_rsi.c lines 809-841);
`none` is a `NULL` argument. -/
def RSI_SetCartesianCorrection (ctx : RSI_Context) (k : Option RSI_CartesianCorrection) :
    RSI_Error × RSI_Context :=
  if ctx.initialized = false then (RSI_ERROR_INIT_FAILED, ctx)
  else if ctx.running = false then (RSI_ERROR_NOT_RUNNING, ctx)
  else
    match k with
    | none => (RSI_ERROR_INVALID_PARAM, ctx)
    | some c => (RSI_SUCCESS, { ctx with correction := c })

/-- Model of `RSI_GetStatistics` (kuka_rsi.c lines 843-871).  Note: the
source checks `initialized` but, unlike the other accessors, not
`running`. -/
def RSI_GetStatistics (ctx : RSI_Context) (ptrOk : Bool) :
    RSI_Error × RSI_Context × Option RSI_Statistics :=
  if ctx.initialized = false then (RSI_ERROR_INIT_FAILED, ctx, none)
  else if ptrOk = false then (RSI_ERROR_INVALID_PARAM, ctx, none)
  else (RSI_SUCCESS, ctx, some ctx.stats)

/-- A context directly after `RSI_Init` with the default configuration. -/
def ctxInit : RSI_Context := (RSI_Init emptyContext none).2

/-- A context after `Init`, `SetCallbacks` (both callbacks bound) and a
successful `Start`. -/
def ctxReady : RSI_Context :=
  (RSI_Start (RSI_SetCallbacks ctxInit true true).2 true true).2

/-- A full inbound sensor frame with `<RIst>`, `<AIPos>` and `<IPOC>`. -/
def frameFull : List Char :=
  lit "<Rob Type=\"KUKA\"><RIst X=\"100.0\" Y=\"0.0\" Z=\"0.0\" A=\"0.0\" B=\"0.0\" C=\"0.0\" /><AIPos A1=\"1.5\" A2=\"2.0\" A3=\"3.0\" A4=\"4.0\" A5=\"5.0\" A6=\"6.0\" /><IPOC>0001234</IPOC></Rob>"

/-- An inbound frame with `<RIst>` and `<IPOC>` but no `<AIPos>`. -/
def frameNoAipos : List Char :=
  lit "<Rob><RIst X=\"100.0\" Y=\"0.0\" Z=\"0.0\" A=\"0.0\" B=\"0.0\" C=\"0.0\" /><IPOC>7</IPOC></Rob>"

/-- Characters that can occur in a `%.4f` rendering. -/
def NumAlph : List Char := lit "0123456789.-"

/-- Segments of the response template used by the occurrence analysis:
fixed text or a `%.4f`-rendered number. -/
inductive Chunk where
  | fx (t : List Char)
  | nm (t : List Char)

/-- The bytes of a chunk. -/
def Chunk.str : Chunk → List Char
  | .fx t => t
  | .nm t => t

/-- Concatenation of a chunk list. -/
def joinChunks (cs : List Chunk) : List Char :=
  cs.foldr (fun c acc => c.str ++ acc) []

/-- Well-formedness of a single chunk with respect to a search pattern:
fixed text must not contain the pattern; a number chunk is nonempty and
drawn from the numeric alphabet. -/
def chunkOK (pat : List Char) : Chunk → Prop
  | .fx t => ¬ pat <:+: t
  | .nm t => t ≠ [] ∧ ∀ c ∈ t, c ∈ NumAlph

/-- No two fixed chunks are adjacent (number chunks separate them). -/
def noFxFx : List Chunk → Prop
  | [] => True
  | [_] => True
  | Chunk.fx _ :: Chunk.fx _ :: _ => False
  | _ :: c :: cs => noFxFx (c :: cs)

/-! ## Theory of `strstr` -/

theorem strstr_eq_none_iff (pat : List Char) (hpat : pat ≠ []) :
    ∀ l, strstr pat l = none ↔ ¬ pat <:+: l := by
  intro l
  induction l with
  | nil =>
    simp [strstr, hpat, List.infix_nil]
  | cons c t ih =>
    by_cases hp : pat <+: c :: t
    · have hb : pat.isPrefixOf (c :: t) = true := List.isPrefixOf_iff_prefix.mpr hp
      simp only [strstr, hb, if_true]
      constructor
      · intro h; exact absurd h (by simp)
      · intro h; exact absurd (List.IsPrefix.isInfix hp) h
    · have hb : pat.isPrefixOf (c :: t) = false := by
        rw [Bool.eq_false_iff]
        intro h; exact hp (List.isPrefixOf_iff_prefix.mp h)
      simp only [strstr, hb, Bool.false_eq_true, if_false, ih, List.infix_cons_iff]
      tauto

theorem dropLast_cons_append (c : Char) (pre pat : List Char) (hpat : pat ≠ []) :
    ((c :: pre) ++ pat).dropLast = c :: (pre ++ pat).dropLast := by
  obtain ⟨p0, p1, hp⟩ := List.exists_cons_of_ne_nil hpat
  subst hp
  rw [show (c :: pre) ++ p0 :: p1 = (c :: pre) ++ p0 :: p1 from rfl,
    List.dropLast_append_cons, List.dropLast_append_cons]
  rfl

theorem strstr_prepend (pat pre rest : List Char) (hpat : pat ≠ [])
    (h : ¬ pat <:+: (pre ++ pat).dropLast) :
    strstr pat (pre ++ (pat ++ rest)) = some (pat ++ rest) := by
  induction pre with
  | nil =>
    obtain ⟨p0, p1, hp⟩ := List.exists_cons_of_ne_nil hpat
    subst hp
    simp only [List.nil_append]
    show strstr (p0 :: p1) (p0 :: (p1 ++ rest)) = some (p0 :: (p1 ++ rest))
    have hb : (p0 :: p1).isPrefixOf (p0 :: (p1 ++ rest)) = true := by
      rw [ List.isPrefixOf_iff_prefix, List.cons_prefix_cons]
      exact ⟨rfl, List.prefix_append _ _⟩
    simp [strstr, hb]
  | cons c pre ih =>
    rw [dropLast_cons_append c pre pat hpat] at h
    have hnp : ¬ pat <+: c :: (pre ++ (pat ++ rest)) := by
      intro hp
      apply h
      have hlen : pat.length ≤ (c :: (pre ++ pat).dropLast).length := by
        simp only [List.length_cons, List.length_dropLast, List.length_append]
        have : 0 < pat.length := List.length_pos.mpr hpat
        omega
      have hpre2 : c :: (pre ++ pat).dropLast <+: c :: (pre ++ (pat ++ rest)) := by
        rw [ List.cons_prefix_cons]
        refine ⟨rfl, List.IsPrefix.trans (List.dropLast_prefix _) ?_⟩
        rw [← List.append_assoc]
        exact List.prefix_append _ _
      exact List.IsPrefix.isInfix (List.prefix_of_prefix_length_le hp hpre2 hlen)
    have hb : pat.isPrefixOf (c :: (pre ++ (pat ++ rest))) = false := by
      rw [Bool.eq_false_iff]
      intro hx
      exact hnp (List.isPrefixOf_iff_prefix.mp hx)
    show strstr pat (c :: (pre ++ (pat ++ rest))) = some (pat ++ rest)
    simp only [strstr, hb, Bool.false_eq_true, if_false]
    exact ih fun hx => h (List.infix_cons hx)

theorem strstr_some_decomp (pat l s : List Char) (hpat : pat ≠ [])
    (h : strstr pat l = some s) :
    ∃ pre rest, l = pre ++ (pat ++ rest) ∧ s = pat ++ rest ∧
      ¬ pat <:+: (pre ++ pat).dropLast := by
  induction l with
  | nil =>
    simp only [strstr, if_neg hpat] at h
    exact Option.noConfusion h
  | cons c t ih =>
    by_cases hp : pat <+: c :: t
    · have hb : pat.isPrefixOf (c :: t) = true := List.isPrefixOf_iff_prefix.mpr hp
      simp only [strstr, hb, if_true, Option.some.injEq] at h
      obtain ⟨rest, hrest⟩ := hp
      refine ⟨[], rest, by simpa using hrest.symm, by rw [← h, ← hrest], ?_⟩
      intro hinf
      have h1 := List.IsInfix.length_le hinf
      have h2 : 0 < pat.length := List.length_pos.mpr hpat
      simp only [List.nil_append, List.length_dropLast] at h1
      omega
    · have hb : pat.isPrefixOf (c :: t) = false := by
        rw [Bool.eq_false_iff]
        intro hx
        exact hp (List.isPrefixOf_iff_prefix.mp hx)
      simp only [strstr, hb, Bool.false_eq_true, if_false] at h
      obtain ⟨pre, rest, hl, hs, hcond⟩ := ih h
      refine ⟨c :: pre, rest, by rw [List.cons_append, hl], hs, ?_⟩
      rw [dropLast_cons_append c pre pat hpat]
      intro hinf
      rw [ List.infix_cons_iff] at hinf
      rcases hinf with hl2 | hr2
      · apply hp
        have hpre2 : c :: (pre ++ pat).dropLast <+: c :: t := by
          rw [ List.cons_prefix_cons]
          refine ⟨rfl, ?_⟩
          rw [hl]
          exact List.IsPrefix.trans (List.dropLast_prefix _)
            (by rw [← List.append_assoc]; exact List.prefix_append _ _)
        exact List.IsPrefix.trans hl2 hpre2
      · exact hcond hr2

/-! ## Occurrence analysis across concatenations -/

theorem infix_append_cases (pat a b : List Char) (h : pat <:+: a ++ b) :
    pat <:+: a ∨ pat <:+: b ∨
      ∃ i, 0 < i ∧ i < pat.length ∧ pat.take i <:+ a ∧ pat.drop i <+: b := by
  obtain ⟨s, t, hst⟩ := h
  have hsp2 : s <+: a ++ b := ⟨pat ++ t, by rw [← List.append_assoc]; exact hst⟩
  have hap : a <+: a ++ b := List.prefix_append _ _
  by_cases h1 : s.length + pat.length ≤ a.length
  · left
    have hsp : s ++ pat <+: a ++ b := ⟨t, hst⟩
    have hpa : s ++ pat <+: a :=
      List.prefix_of_prefix_length_le hsp hap (by simpa using h1)
    obtain ⟨u, hu⟩ := hpa
    exact ⟨s, u, by rw [← hu]⟩
  · by_cases h2 : a.length ≤ s.length
    · right; left
      have has : a <+: s := List.prefix_of_prefix_length_le hap hsp2 h2
      obtain ⟨u, hu⟩ := has
      refine ⟨u, t, ?_⟩
      apply @List.append_cancel_left _ a
      have hx : ((a ++ u) ++ pat) ++ t = a ++ b := by rw [hu]; exact hst
      simpa [List.append_assoc] using hx
    · right; right
      push_neg at h1 h2
      have hsa : s <+: a := List.prefix_of_prefix_length_le hsp2 hap (by omega)
      obtain ⟨u, hu⟩ := hsa
      have hul : u.length = a.length - s.length := by
        have := congrArg List.length hu
        simp only [List.length_append] at this
        omega
      have hpt : pat ++ t = u ++ b := by
        apply @List.append_cancel_left _ s
        have hx : (s ++ pat) ++ t = (s ++ u) ++ b := by rw [hu]; exact hst
        simpa [List.append_assoc] using hx
      refine ⟨a.length - s.length, by omega, by omega, ?_, ?_⟩
      · have hupre : u <+: pat := by
          have h3 : u <+: pat ++ t := ⟨b, hpt.symm⟩
          exact List.prefix_of_prefix_length_le h3 (List.prefix_append _ _) (by omega)
        have hueq : u = pat.take (a.length - s.length) := by
          have h4 := List.prefix_iff_eq_take.mp hupre
          rw [h4, hul]
        exact ⟨s, by rw [← hueq]; exact hu⟩
      · have hsplit : pat.take (a.length - s.length) ++ (pat.drop (a.length - s.length) ++ t)
            = u ++ b := by
          rw [← List.append_assoc, List.take_append_drop]
          exact hpt
        have hlen : (pat.take (a.length - s.length)).length = u.length := by
          rw [List.length_take, hul]
          omega
        obtain ⟨-, h4⟩ := List.append_inj hsplit hlen
        exact ⟨t, h4⟩

theorem not_infix_append (pat a b : List Char) (ha : ¬ pat <:+: a) (hb : ¬ pat <:+: b)
    (hx : ∀ i, 0 < i → i < pat.length → ¬ (pat.take i <:+ a ∧ pat.drop i <+: b)) :
    ¬ pat <:+: a ++ b := by
  intro h
  rcases infix_append_cases pat a b h with h1 | h2 | ⟨i, hi0, hi1, hi2, hi3⟩
  · exact ha h1
  · exact hb h2
  · exact hx i hi0 hi1 ⟨hi2, hi3⟩

theorem noFxFx_tail (c : Chunk) (cs : List Chunk) (h : noFxFx (c :: cs)) : noFxFx cs := by
  cases cs with
  | nil => trivial
  | cons d cs' => cases c <;> cases d <;> first | exact h | exact h.elim

theorem chunks_avoid (pat : List Char) (h0 : pat ≠ []) (h1 : ∀ c ∈ pat, c ∉ NumAlph)
    (cs : List Chunk) (hok : ∀ c ∈ cs, chunkOK pat c) (halt : noFxFx cs) :
    ¬ pat <:+: joinChunks cs := by
  induction cs with
  | nil =>
    simp only [joinChunks, List.foldr_nil, List.infix_nil]
    exact h0
  | cons c cs ih =>
    have hjc : joinChunks (c :: cs) = c.str ++ joinChunks cs := rfl
    rw [hjc]
    have hihok : ∀ d ∈ cs, chunkOK pat d := fun d hd => hok d (List.mem_cons_of_mem c hd)
    have hih := ih hihok (noFxFx_tail c cs halt)
    have hheadOK := hok c (List.mem_cons_self c cs)
    apply not_infix_append pat c.str (joinChunks cs) ?_ hih ?_
    · cases c with
      | fx t => exact hheadOK
      | nm t =>
        intro hinf
        obtain ⟨p0, p1, hp⟩ := List.exists_cons_of_ne_nil h0
        have hp0 : p0 ∈ pat := by rw [hp]; exact List.mem_cons_self _ _
        have := List.IsInfix.subset hinf (by rw [hp]; exact List.mem_cons_self _ _)
        exact h1 p0 hp0 (hheadOK.2 p0 this)
    · intro i hi0 hi1 ⟨hsuf, hpref⟩
      cases c with
      | nm t =>
        have htk : pat.take i ≠ [] := by
          obtain ⟨p0, p1, hp⟩ := List.exists_cons_of_ne_nil h0
          obtain ⟨j, rfl⟩ : ∃ j, i = j + 1 := ⟨i - 1, by omega⟩
          rw [hp]
          simp
        obtain ⟨q0, q1, hq⟩ := List.exists_cons_of_ne_nil htk
        have hq0pat : q0 ∈ pat := List.take_subset i pat (by rw [hq]; exact List.mem_cons_self _ _)
        have hq0t : q0 ∈ t := List.IsSuffix.subset hsuf (by rw [hq]; exact List.mem_cons_self _ _)
        exact h1 q0 hq0pat (hheadOK.2 q0 hq0t)
      | fx t =>
        cases cs with
        | nil =>
          have hnil : pat.drop i = [] := List.prefix_nil.mp hpref
          rw [List.drop_eq_nil_iff] at hnil
          omega
        | cons d cs' =>
          cases d with
          | fx u => exact halt
          | nm u =>
            have hdOK := hok (Chunk.nm u) (List.mem_cons_of_mem _ (List.mem_cons_self _ _))
            obtain ⟨hune, hual⟩ := hdOK
            have hdr : pat.drop i ≠ [] := by
              intro hnil
              rw [List.drop_eq_nil_iff] at hnil
              omega
            obtain ⟨q0, q1, hq⟩ := List.exists_cons_of_ne_nil hdr
            obtain ⟨u0, u1, hu⟩ := List.exists_cons_of_ne_nil hune
            have hjoin : joinChunks (Chunk.nm u :: cs') = u0 :: (u1 ++ joinChunks cs') := by
              show u ++ joinChunks cs' = u0 :: (u1 ++ joinChunks cs')
              rw [hu]; rfl
            rw [hq, hjoin, List.cons_prefix_cons] at hpref
            have hq0pat : q0 ∈ pat := List.drop_subset i pat (by rw [hq]; exact List.mem_cons_self _ _)
            have hu0u : u0 ∈ u := by rw [hu]; exact List.mem_cons_self _ _
            exact h1 q0 hq0pat (by rw [hpref.1]; exact hual u0 hu0u)

/-! ## Decimal rendering and parsing -/

theorem digitVal_digitChar (d : ℕ) (h : d < 10) : digitVal (digitChar d) = d := by
  interval_cases d <;> rfl

theorem digitChar_isDigit (d : ℕ) (h : d < 10) : (digitChar d).isDigit = true := by
  interval_cases d <;> rfl

theorem digitChar_mem_NumAlph (d : ℕ) (h : d < 10) : digitChar d ∈ NumAlph := by
  interval_cases d <;> decide

theorem digitsVal_append_one (l : List Char) (c : Char) :
    digitsVal (l ++ [c]) = digitsVal l * 10 + digitVal c := by
  simp [digitsVal, List.foldl_append]

theorem digitsVal_rev_map (L : List ℕ) (h : ∀ d ∈ L, d < 10) :
    digitsVal (L.reverse.map digitChar) = Nat.ofDigits 10 L := by
  induction L with
  | nil => rfl
  | cons d L ih =>
    have hd : d < 10 := h d (List.mem_cons_self _ _)
    have hL : ∀ x ∈ L, x < 10 := fun x hx => h x (List.mem_cons_of_mem _ hx)
    rw [List.reverse_cons, List.map_append]
    simp only [List.map_cons, List.map_nil]
    rw [digitsVal_append_one, ih hL, Nat.ofDigits_cons, digitVal_digitChar d hd]
    omega

theorem natDecAux_eq_digits (fuel : ℕ) : ∀ n, n ≤ fuel →
    natDecAux fuel n = ((Nat.digits 10 n).reverse.map digitChar) := by
  induction fuel with
  | zero =>
    intro n hn
    interval_cases n
    rw [Nat.digits_zero]
    rfl
  | succ f ih =>
    intro n hn
    cases n with
    | zero =>
      rw [Nat.digits_zero]
      rfl
    | succ m =>
      have hdiv : (m + 1) / 10 ≤ f := by
        have := Nat.div_lt_self (Nat.succ_pos m) (by norm_num : (1:ℕ) < 10)
        omega
      show natDecAux f ((m + 1) / 10) ++ [digitChar ((m + 1) % 10)] = _
      rw [ih _ hdiv, Nat.digits_def' (by norm_num : (1:ℕ) < 10) (Nat.succ_pos m),
        List.reverse_cons, List.map_append]
      rfl

theorem natDec_eq (n : ℕ) :
    natDec n = if n = 0 then ['0'] else ((Nat.digits 10 n).reverse.map digitChar) := by
  rw [natDec]
  by_cases hn : n = 0
  · rw [if_pos hn, if_pos hn]
  · rw [if_neg hn, if_neg hn, natDecAux_eq_digits n n (le_refl n)]

theorem digitsVal_natDec (n : ℕ) : digitsVal (natDec n) = n := by
  by_cases hn : n = 0
  · subst hn; rfl
  · rw [natDec_eq, if_neg hn,
      digitsVal_rev_map _ (fun d hd => Nat.digits_lt_base (by norm_num) hd),
      Nat.ofDigits_digits]

theorem natDec_all_digits (n : ℕ) : ∀ c ∈ natDec n, c.isDigit = true := by
  by_cases hn : n = 0
  · subst hn; intro c hc; simp [natDec] at hc; subst hc; rfl
  · intro c hc
    rw [natDec_eq, if_neg hn] at hc
    obtain ⟨d, hd, hdc⟩ := List.mem_map.mp hc
    rw [← hdc]
    exact digitChar_isDigit d (Nat.digits_lt_base (by norm_num) (List.mem_reverse.mp hd))

theorem natDec_mem_NumAlph (n : ℕ) : ∀ c ∈ natDec n, c ∈ NumAlph := by
  by_cases hn : n = 0
  · subst hn; intro c hc; simp [natDec] at hc; subst hc; decide
  · intro c hc
    rw [natDec_eq, if_neg hn] at hc
    obtain ⟨d, hd, hdc⟩ := List.mem_map.mp hc
    rw [← hdc]
    exact digitChar_mem_NumAlph d (Nat.digits_lt_base (by norm_num) (List.mem_reverse.mp hd))

theorem natDec_ne_nil (n : ℕ) : natDec n ≠ [] := by
  by_cases hn : n = 0
  · subst hn; simp [natDec]
  · rw [natDec_eq, if_neg hn]
    simp [Nat.digits_ne_nil_iff_ne_zero.mpr hn]

theorem pad4_all_digits (f : ℕ) : ∀ c ∈ pad4 f, c.isDigit = true := by
  intro c hc
  simp only [pad4, List.mem_cons, List.not_mem_nil, or_false] at hc
  rcases hc with h | h | h | h <;>
    (rw [h]; exact digitChar_isDigit _ (Nat.mod_lt _ (by norm_num)))

theorem pad4_mem_NumAlph (f : ℕ) : ∀ c ∈ pad4 f, c ∈ NumAlph := by
  intro c hc
  simp only [pad4, List.mem_cons, List.not_mem_nil, or_false] at hc
  rcases hc with h | h | h | h <;>
    (rw [h]; exact digitChar_mem_NumAlph _ (Nat.mod_lt _ (by norm_num)))

theorem digitsVal_pad4 (f : ℕ) (h : f < 10000) : digitsVal (pad4 f) = f := by
  have h1 : f / 1000 % 10 < 10 := Nat.mod_lt _ (by norm_num)
  have h2 : f / 100 % 10 < 10 := Nat.mod_lt _ (by norm_num)
  have h3 : f / 10 % 10 < 10 := Nat.mod_lt _ (by norm_num)
  have h4 : f % 10 < 10 := Nat.mod_lt _ (by norm_num)
  simp only [pad4, digitsVal, List.foldl_cons, List.foldl_nil,
    digitVal_digitChar _ h1, digitVal_digitChar _ h2, digitVal_digitChar _ h3,
    digitVal_digitChar _ h4]
  omega

theorem fmtFixed4_mem_NumAlph (q : ℚ) : ∀ c ∈ fmtFixed4 q, c ∈ NumAlph := by
  intro c hc
  rw [fmtFixed4] at hc
  rcases List.mem_append.mp hc with h1 | h2
  · rcases List.mem_append.mp h1 with h3 | h4
    · by_cases hq : q < 0
      · rw [if_pos hq] at h3
        simp only [List.mem_singleton] at h3
        subst h3; decide
      · rw [if_neg hq] at h3
        exact absurd h3 (List.not_mem_nil c)
    · exact natDec_mem_NumAlph _ c h4
  · rcases List.mem_cons.mp h2 with h3 | h4
    · subst h3; decide
    · exact pad4_mem_NumAlph _ c h4

theorem fmtFixed4_ne_nil (q : ℚ) : fmtFixed4 q ≠ [] := by
  rw [fmtFixed4]
  intro h
  rcases List.append_eq_nil.mp h with ⟨h1, h2⟩
  rcases List.append_eq_nil.mp h1 with ⟨-, h3⟩
  exact natDec_ne_nil _ h3

theorem digit_not_special (c : Char) (h : c.isDigit = true) :
    isSpaceC c = false ∧ c ≠ '-' ∧ c ≠ '+' ∧ c ≠ '.' ∧ c ≠ 'e' ∧ c ≠ 'E' := by
  refine ⟨?_, ?_, ?_, ?_, ?_, ?_⟩
  · by_contra hb
    rw [Bool.not_eq_false] at hb
    simp only [isSpaceC, Bool.or_eq_true, decide_eq_true_eq] at hb
    rcases hb with ((((h1 | h1) | h1) | h1) | h1) | h1 <;> (subst h1; exact absurd h (by decide))
  all_goals (intro h1; subst h1; exact absurd h (by decide))

theorem atofSign_cons_other (c : Char) (l : List Char) (h1 : c ≠ '-') (h2 : c ≠ '+') :
    atofSign (c :: l) = (1, c :: l) := by
  simp [atofSign, h1, h2]

theorem atofSign_minus (l : List Char) : atofSign ('-' :: l) = (-1, l) := by
  simp [atofSign]

theorem atof_cons_plain (c0 : Char) (l : List Char) (hsp : isSpaceC c0 = false)
    (hm : c0 ≠ '-') (hp : c0 ≠ '+') : atof (c0 :: l) = atofAfterSign 1 (c0 :: l) := by
  show atofAfterSign (atofSign ((c0 :: l).dropWhile isSpaceC)).1
      (atofSign ((c0 :: l).dropWhile isSpaceC)).2 = _
  rw [List.dropWhile_cons_of_neg (by simp [hsp]), atofSign_cons_other c0 l hm hp]

theorem atof_cons_minus (l : List Char) : atof ('-' :: l) = atofAfterSign (-1) l := by
  show atofAfterSign (atofSign (('-' :: l).dropWhile isSpaceC)).1
      (atofSign (('-' :: l).dropWhile isSpaceC)).2 = _
  rw [List.dropWhile_cons_of_neg (by decide), atofSign_minus]

theorem atofAfterSign_decimal (sgn : ℚ) (nd : List Char)
    (hdig : ∀ c ∈ nd, c.isDigit = true) (F : ℕ) (hF : F < 10000) (t : List Char) :
    atofAfterSign sgn (nd ++ '.' :: (pad4 F ++ '"' :: t))
      = sgn * ((digitsVal nd : ℚ) + (F : ℚ) / 10000) := by
  have h3 : (nd ++ '.' :: (pad4 F ++ '"' :: t)).takeWhile Char.isDigit = nd := by
    rw [List.takeWhile_append_of_pos hdig, List.takeWhile_cons_of_neg (by decide),
      List.append_nil]
  have h4 : (nd ++ '.' :: (pad4 F ++ '"' :: t)).dropWhile Char.isDigit
      = '.' :: (pad4 F ++ '"' :: t) := by
    rw [List.dropWhile_append_of_pos hdig, List.dropWhile_cons_of_neg (by decide)]
  have h5 : atofFrac ('.' :: (pad4 F ++ '"' :: t)) = (pad4 F, '"' :: t) := by
    simp only [atofFrac, if_pos]
    rw [List.takeWhile_append_of_pos (pad4_all_digits F),
      List.takeWhile_cons_of_neg (by decide), List.append_nil,
      List.dropWhile_append_of_pos (pad4_all_digits F),
      List.dropWhile_cons_of_neg (by decide)]
  have h6 : atofExpPart ('"' :: t) = 0 := by
    simp [atofExpPart]
  simp only [atofAfterSign, h3, h4, h5, h6]
  rw [digitsVal_pad4 F hF]
  have hlen : (pad4 F).length = 4 := rfl
  rw [hlen]
  norm_num [pow10z]

theorem atof_fmtFixed4 (q : ℚ) (t : List Char) :
    atof (fmtFixed4 q ++ '"' :: t) = round4 q := by
  obtain ⟨c0, cs, hnd⟩ := List.exists_cons_of_ne_nil (natDec_ne_nil (scaled4 q / 10000))
  have hc0 : c0.isDigit = true :=
    natDec_all_digits _ c0 (by rw [hnd]; exact List.mem_cons_self _ _)
  obtain ⟨hsp0, hm0, hp0, -, -, -⟩ := digit_not_special c0 hc0
  have hnmod := Nat.div_add_mod (scaled4 q) 10000
  have hcast : (10000 : ℚ) * ((scaled4 q / 10000 : ℕ) : ℚ) + ((scaled4 q % 10000 : ℕ) : ℚ)
      = ((scaled4 q : ℕ) : ℚ) := by exact_mod_cast hnmod
  have hcons : natDec (scaled4 q / 10000) ++ ('.' :: (pad4 (scaled4 q % 10000) ++ '"' :: t))
      = c0 :: (cs ++ ('.' :: (pad4 (scaled4 q % 10000) ++ '"' :: t))) := by
    rw [hnd]; rfl
  have hval : atofAfterSign 1 (natDec (scaled4 q / 10000)
        ++ ('.' :: (pad4 (scaled4 q % 10000) ++ '"' :: t)))
      = ((scaled4 q : ℕ) : ℚ) / 10000 := by
    rw [atofAfterSign_decimal 1 _ (natDec_all_digits _) _ (Nat.mod_lt _ (by norm_num)) t,
      digitsVal_natDec]
    field_simp
    linarith
  by_cases hq : q < 0
  · have hshape : fmtFixed4 q ++ '"' :: t
        = '-' :: (natDec (scaled4 q / 10000)
            ++ ('.' :: (pad4 (scaled4 q % 10000) ++ '"' :: t))) := by
      rw [fmtFixed4, if_pos hq]
      simp [List.append_assoc]
    rw [hshape, atof_cons_minus,
      atofAfterSign_decimal (-1) _ (natDec_all_digits _) _ (Nat.mod_lt _ (by norm_num)) t,
      digitsVal_natDec, round4, if_pos hq]
    field_simp
    linarith
  · have hshape : fmtFixed4 q ++ '"' :: t
        = natDec (scaled4 q / 10000) ++ ('.' :: (pad4 (scaled4 q % 10000) ++ '"' :: t)) := by
      rw [fmtFixed4, if_neg hq]
      simp [List.append_assoc]
    rw [hshape, hcons, atof_cons_plain c0 _ hsp0 hm0 hp0, ← hcons, hval, round4, if_neg hq]
    ring

/-! ## Extraction from the rendered response -/

theorem dropLast_append_concat (x y : List Char) (c : Char) :
    (x ++ (y ++ [c])).dropLast = x ++ y := by
  rw [← List.append_assoc, List.dropLast_concat]

theorem first_close (x : List Char) (h : ¬ TAG_IPOC_END <:+: x) :
    ¬ TAG_IPOC_END <:+: (x ++ TAG_IPOC_END).dropLast := by
  have hshape : (x ++ TAG_IPOC_END).dropLast = x ++ lit "</IPOC" := by
    rw [show TAG_IPOC_END = lit "</IPOC" ++ ['>'] by decide, dropLast_append_concat]
  rw [hshape]
  apply not_infix_append _ _ _ h (by decide)
  intro i hi0 hi1 hpair
  have hlen : TAG_IPOC_END.length = 7 := rfl
  rw [hlen] at hi1
  have hpref := hpair.2
  interval_cases i <;> revert hpref <;> decide

theorem extract_ipoc_decomp (pre mid rest : List Char)
    (hpre : ¬ TAG_IPOC_START <:+: (pre ++ TAG_IPOC_START).dropLast)
    (hmid : ¬ TAG_IPOC_END <:+: mid) (hlen : mid.length < 32) :
    extract_ipoc 32 (pre ++ (TAG_IPOC_START ++ (mid ++ (TAG_IPOC_END ++ rest))))
      = some mid := by
  have h1 : strstr TAG_IPOC_START (pre ++ (TAG_IPOC_START ++ (mid ++ (TAG_IPOC_END ++ rest))))
      = some (TAG_IPOC_START ++ (mid ++ (TAG_IPOC_END ++ rest))) :=
    strstr_prepend _ pre _ (by decide) hpre
  have h2 : (TAG_IPOC_START ++ (mid ++ (TAG_IPOC_END ++ rest))).drop TAG_IPOC_START.length
      = mid ++ (TAG_IPOC_END ++ rest) := List.drop_left _ _
  have h3 : strstr TAG_IPOC_END (mid ++ (TAG_IPOC_END ++ rest)) = some (TAG_IPOC_END ++ rest) :=
    strstr_prepend _ mid rest (by decide) (first_close mid hmid)
  have h4 : (mid ++ (TAG_IPOC_END ++ rest)).length - (TAG_IPOC_END ++ rest).length
      = mid.length := by
    simp [List.length_append]
  simp only [extract_ipoc, h1, h2, h3, h4]
  rw [if_neg (by omega), List.take_left]

theorem renderResponse_split (ipoc : List Char) (k : RSI_CartesianCorrection) :
    renderResponse ipoc k
      = korrPrefix k ++ (TAG_IPOC_START ++ (ipoc ++ (TAG_IPOC_END ++ lit "\n</Sen>"))) := by
  have e1 : SEP_IPOC = lit "\" />\n" ++ TAG_IPOC_START := by decide
  have e2 : RESP_SUF = TAG_IPOC_END ++ lit "\n</Sen>" := by decide
  rw [renderResponse, korrPrefix, e1, e2]
  simp [List.append_assoc]

theorem korrPrefix_ipoc_clear (k : RSI_CartesianCorrection) :
    ¬ TAG_IPOC_START <:+: (korrPrefix k ++ TAG_IPOC_START).dropLast := by
  have hshape : (korrPrefix k ++ TAG_IPOC_START).dropLast = korrPrefix k ++ lit "<IPOC" := by
    rw [show TAG_IPOC_START = lit "<IPOC" ++ ['>'] by decide, dropLast_append_concat]
  rw [hshape]
  have hjoin : korrPrefix k ++ lit "<IPOC"
      = joinChunks [Chunk.fx RESP_PRE, Chunk.nm (fmtFixed4 k.x), Chunk.fx SEP_Y,
          Chunk.nm (fmtFixed4 k.y), Chunk.fx SEP_Z, Chunk.nm (fmtFixed4 k.z),
          Chunk.fx SEP_A, Chunk.nm (fmtFixed4 k.a), Chunk.fx SEP_B,
          Chunk.nm (fmtFixed4 k.b), Chunk.fx SEP_C, Chunk.nm (fmtFixed4 k.c),
          Chunk.fx (lit "\" />\n<IPOC")] := by
    have e3 : lit "\" />\n<IPOC" = lit "\" />\n" ++ lit "<IPOC" := by decide
    rw [korrPrefix]
    simp [joinChunks, Chunk.str, e3, List.append_assoc]
  rw [hjoin]
  apply chunks_avoid TAG_IPOC_START (by decide) (by decide)
  · intro c hc
    simp only [List.mem_cons, List.not_mem_nil, or_false] at hc
    rcases hc with h | h | h | h | h | h | h | h | h | h | h | h | h <;> subst h
    · exact (by decide : ¬ TAG_IPOC_START <:+: RESP_PRE)
    · exact ⟨fmtFixed4_ne_nil _, fmtFixed4_mem_NumAlph _⟩
    · exact (by decide : ¬ TAG_IPOC_START <:+: SEP_Y)
    · exact ⟨fmtFixed4_ne_nil _, fmtFixed4_mem_NumAlph _⟩
    · exact (by decide : ¬ TAG_IPOC_START <:+: SEP_Z)
    · exact ⟨fmtFixed4_ne_nil _, fmtFixed4_mem_NumAlph _⟩
    · exact (by decide : ¬ TAG_IPOC_START <:+: SEP_A)
    · exact ⟨fmtFixed4_ne_nil _, fmtFixed4_mem_NumAlph _⟩
    · exact (by decide : ¬ TAG_IPOC_START <:+: SEP_B)
    · exact ⟨fmtFixed4_ne_nil _, fmtFixed4_mem_NumAlph _⟩
    · exact (by decide : ¬ TAG_IPOC_START <:+: SEP_C)
    · exact ⟨fmtFixed4_ne_nil _, fmtFixed4_mem_NumAlph _⟩
    · exact (by decide : ¬ TAG_IPOC_START <:+: lit "\" />\n<IPOC")
  · simp [noFxFx]

theorem extract_renderResponse (k : RSI_CartesianCorrection) (ipoc : List Char)
    (h1 : ¬ TAG_IPOC_END <:+: ipoc) (h2 : ipoc.length < 32) :
    extract_ipoc 32 (renderResponse ipoc k) = some ipoc := by
  rw [renderResponse_split]
  exact extract_ipoc_decomp (korrPrefix k) ipoc (lit "\n</Sen>")
    (korrPrefix_ipoc_clear k) h1 h2

theorem take_pre_facts (pre body : List Char) (len : ℕ) (hle : len ≤ pre.length)
    (hle31 : len ≤ 31) (hbody : body = pre.take len)
    (hcond : ¬ TAG_IPOC_END <:+: (pre ++ TAG_IPOC_END).dropLast) :
    body.length < 32 ∧ ¬ TAG_IPOC_END <:+: body := by
  constructor
  · rw [hbody]
    have := List.length_take_le len pre
    omega
  · rw [hbody]
    intro hinf
    apply hcond
    have hbp : pre.take len <+: pre := List.take_prefix _ _
    have hpp : pre <+: (pre ++ TAG_IPOC_END).dropLast := by
      rw [show TAG_IPOC_END = lit "</IPOC" ++ ['>'] by decide, dropLast_append_concat]
      exact List.prefix_append _ _
    exact List.IsInfix.trans hinf
      (List.IsPrefix.isInfix (List.IsPrefix.trans hbp hpp))

theorem extract_ipoc_props (xml body : List Char) (h : extract_ipoc 32 xml = some body) :
    body.length < 32 ∧ ¬ TAG_IPOC_END <:+: body := by
  cases hs : strstr TAG_IPOC_START xml with
  | none =>
    simp only [extract_ipoc, hs] at h
    exact Option.noConfusion h
  | some s =>
    cases he : strstr TAG_IPOC_END (s.drop TAG_IPOC_START.length) with
    | none =>
      simp only [extract_ipoc, hs, he] at h
      exact Option.noConfusion h
    | some e =>
      simp only [extract_ipoc, hs, he, Option.some.injEq] at h
      obtain ⟨pre, rest, hdec, hse, hcond⟩ := strstr_some_decomp _ _ _ (by decide) he
      rw [hdec, hse] at h
      have hlen0 : (pre ++ (TAG_IPOC_END ++ rest)).length - (TAG_IPOC_END ++ rest).length
          = pre.length := by
        simp [List.length_append]
      rw [hlen0] at h
      by_cases hc : 32 ≤ pre.length
      · rw [if_pos hc] at h
        exact take_pre_facts pre body (32 - 1) (by omega) (by omega)
          (by rw [← h, List.take_append_of_le_length (by omega)]) hcond
      · rw [if_neg hc] at h
        exact take_pre_facts pre body pre.length (le_refl _) (by omega)
          (by rw [← h, List.take_append_of_le_length (le_refl _)]) hcond

/-! ## Attribute parsing from the rendered response -/

theorem parse_attr_prepend (pre rest : List Char) (attr : List Char) (v : ℚ)
    (hne : attr ++ lit "=\"" ≠ [])
    (hpre : ¬ (attr ++ lit "=\"") <:+: (pre ++ (attr ++ lit "=\"")).dropLast) :
    parse_position_attr (pre ++ ((attr ++ lit "=\"") ++ (fmtFixed4 v ++ '"' :: rest))) attr
      = round4 v := by
  have h1 : strstr (attr ++ lit "=\"")
      (pre ++ ((attr ++ lit "=\"") ++ (fmtFixed4 v ++ '"' :: rest)))
      = some ((attr ++ lit "=\"") ++ (fmtFixed4 v ++ '"' :: rest)) :=
    strstr_prepend _ pre _ hne hpre
  simp only [parse_position_attr, h1]
  rw [List.drop_left]
  exact atof_fmtFixed4 v rest

theorem parse_attrX_render (ipoc : List Char) (k : RSI_CartesianCorrection) :
    parse_position_attr (renderResponse ipoc k) (lit "X") = round4 k.x := by
  have hsplit : renderResponse ipoc k
      = lit "<Sen Type=\"ImFree\">\n<EStr>RSI Monitor</EStr>\n<RKorr "
        ++ ((lit "X" ++ lit "=\"")
          ++ (fmtFixed4 k.x ++ '"' :: (lit " Y=\"" ++ fmtFixed4 k.y ++ SEP_Z
            ++ fmtFixed4 k.z ++ SEP_A ++ fmtFixed4 k.a ++ SEP_B
            ++ fmtFixed4 k.b ++ SEP_C ++ fmtFixed4 k.c ++ SEP_IPOC
            ++ ipoc ++ RESP_SUF))) := by
    rw [renderResponse,
      show RESP_PRE = lit "<Sen Type=\"ImFree\">\n<EStr>RSI Monitor</EStr>\n<RKorr "
        ++ (lit "X" ++ lit "=\"") by decide,
      show SEP_Y = '"' :: lit " Y=\"" by decide]
    simp [List.append_assoc]
  rw [hsplit]
  exact parse_attr_prepend _ _ _ _ (by decide) (by decide)

theorem parse_attrY_render (ipoc : List Char) (k : RSI_CartesianCorrection) :
    parse_position_attr (renderResponse ipoc k) (lit "Y") = round4 k.y := by
  have hsplit : renderResponse ipoc k
      = (RESP_PRE ++ (fmtFixed4 k.x ++ lit "\" "))
        ++ ((lit "Y" ++ lit "=\"")
          ++ (fmtFixed4 k.y ++ '"' :: (lit " Z=\"" ++ fmtFixed4 k.z
            ++ SEP_A ++ fmtFixed4 k.a ++ SEP_B ++ fmtFixed4 k.b
            ++ SEP_C ++ fmtFixed4 k.c ++ SEP_IPOC ++ ipoc ++ RESP_SUF))) := by
    rw [renderResponse,
      show SEP_Y = lit "\" " ++ (lit "Y" ++ lit "=\"") by decide,
      show SEP_Z = '"' :: lit " Z=\"" by decide]
    simp [List.append_assoc]
  rw [hsplit]
  apply parse_attr_prepend _ _ _ _ (by decide)
  have hdl : ((RESP_PRE ++ (fmtFixed4 k.x ++ lit "\" ")) ++ (lit "Y" ++ lit "=\"")).dropLast
      = (RESP_PRE ++ (fmtFixed4 k.x ++ lit "\" ")) ++ lit "Y=" := by
    rw [show lit "Y" ++ lit "=\"" = lit "Y=" ++ ['"'] by decide, dropLast_append_concat]
  rw [hdl]
  have hjoin : (RESP_PRE ++ (fmtFixed4 k.x ++ lit "\" ")) ++ lit "Y="
      = joinChunks [Chunk.fx RESP_PRE, Chunk.nm (fmtFixed4 k.x), Chunk.fx (lit "\" Y=")] := by
    simp [joinChunks, Chunk.str, show lit "\" Y=" = lit "\" " ++ lit "Y=" by decide,
      List.append_assoc]
  rw [hjoin]
  apply chunks_avoid (lit "Y" ++ lit "=\"") (by decide) (by decide)
  · intro c hc
    simp only [List.mem_cons, List.not_mem_nil, or_false] at hc
    rcases hc with h | h | h <;> subst h
    · exact (by decide : ¬ lit "Y" ++ lit "=\"" <:+: RESP_PRE)
    · exact ⟨fmtFixed4_ne_nil _, fmtFixed4_mem_NumAlph _⟩
    · exact (by decide : ¬ lit "Y" ++ lit "=\"" <:+: lit "\" Y=")
  · simp [noFxFx]

theorem parse_attrZ_render (ipoc : List Char) (k : RSI_CartesianCorrection) :
    parse_position_attr (renderResponse ipoc k) (lit "Z") = round4 k.z := by
  have hsplit : renderResponse ipoc k
      = (RESP_PRE ++ (fmtFixed4 k.x ++ (SEP_Y ++ (fmtFixed4 k.y ++ lit "\" "))))
        ++ ((lit "Z" ++ lit "=\"")
          ++ (fmtFixed4 k.z ++ '"' :: (lit " A=\"" ++ fmtFixed4 k.a
            ++ SEP_B ++ fmtFixed4 k.b ++ SEP_C ++ fmtFixed4 k.c
            ++ SEP_IPOC ++ ipoc ++ RESP_SUF))) := by
    rw [renderResponse,
      show SEP_Z = lit "\" " ++ (lit "Z" ++ lit "=\"") by decide,
      show SEP_A = '"' :: lit " A=\"" by decide]
    simp [List.append_assoc]
  rw [hsplit]
  apply parse_attr_prepend _ _ _ _ (by decide)
  have hdl : ((RESP_PRE ++ (fmtFixed4 k.x ++ (SEP_Y ++ (fmtFixed4 k.y ++ lit "\" "))))
        ++ (lit "Z" ++ lit "=\"")).dropLast
      = (RESP_PRE ++ (fmtFixed4 k.x ++ (SEP_Y ++ (fmtFixed4 k.y ++ lit "\" ")))) ++ lit "Z=" := by
    rw [show lit "Z" ++ lit "=\"" = lit "Z=" ++ ['"'] by decide, dropLast_append_concat]
  rw [hdl]
  have hjoin : (RESP_PRE ++ (fmtFixed4 k.x ++ (SEP_Y ++ (fmtFixed4 k.y ++ lit "\" ")))) ++ lit "Z="
      = joinChunks [Chunk.fx RESP_PRE, Chunk.nm (fmtFixed4 k.x), Chunk.fx SEP_Y,
          Chunk.nm (fmtFixed4 k.y), Chunk.fx (lit "\" Z=")] := by
    simp [joinChunks, Chunk.str, show lit "\" Z=" = lit "\" " ++ lit "Z=" by decide,
      List.append_assoc]
  rw [hjoin]
  apply chunks_avoid (lit "Z" ++ lit "=\"") (by decide) (by decide)
  · intro c hc
    simp only [List.mem_cons, List.not_mem_nil, or_false] at hc
    rcases hc with h | h | h | h | h <;> subst h
    · exact (by decide : ¬ lit "Z" ++ lit "=\"" <:+: RESP_PRE)
    · exact ⟨fmtFixed4_ne_nil _, fmtFixed4_mem_NumAlph _⟩
    · exact (by decide : ¬ lit "Z" ++ lit "=\"" <:+: SEP_Y)
    · exact ⟨fmtFixed4_ne_nil _, fmtFixed4_mem_NumAlph _⟩
    · exact (by decide : ¬ lit "Z" ++ lit "=\"" <:+: lit "\" Z=")
  · simp [noFxFx]

theorem parse_attrA_render (ipoc : List Char) (k : RSI_CartesianCorrection) :
    parse_position_attr (renderResponse ipoc k) (lit "A") = round4 k.a := by
  have hsplit : renderResponse ipoc k
      = (RESP_PRE ++ (fmtFixed4 k.x ++ (SEP_Y ++ (fmtFixed4 k.y ++ (SEP_Z
          ++ (fmtFixed4 k.z ++ lit "\" "))))))
        ++ ((lit "A" ++ lit "=\"")
          ++ (fmtFixed4 k.a ++ '"' :: (lit " B=\"" ++ fmtFixed4 k.b
            ++ SEP_C ++ fmtFixed4 k.c ++ SEP_IPOC ++ ipoc ++ RESP_SUF))) := by
    rw [renderResponse,
      show SEP_A = lit "\" " ++ (lit "A" ++ lit "=\"") by decide,
      show SEP_B = '"' :: lit " B=\"" by decide]
    simp [List.append_assoc]
  rw [hsplit]
  apply parse_attr_prepend _ _ _ _ (by decide)
  have hdl : ((RESP_PRE ++ (fmtFixed4 k.x ++ (SEP_Y ++ (fmtFixed4 k.y ++ (SEP_Z
          ++ (fmtFixed4 k.z ++ lit "\" ")))))) ++ (lit "A" ++ lit "=\"")).dropLast
      = (RESP_PRE ++ (fmtFixed4 k.x ++ (SEP_Y ++ (fmtFixed4 k.y ++ (SEP_Z
          ++ (fmtFixed4 k.z ++ lit "\" ")))))) ++ lit "A=" := by
    rw [show lit "A" ++ lit "=\"" = lit "A=" ++ ['"'] by decide, dropLast_append_concat]
  rw [hdl]
  have hjoin : (RESP_PRE ++ (fmtFixed4 k.x ++ (SEP_Y ++ (fmtFixed4 k.y ++ (SEP_Z
          ++ (fmtFixed4 k.z ++ lit "\" ")))))) ++ lit "A="
      = joinChunks [Chunk.fx RESP_PRE, Chunk.nm (fmtFixed4 k.x), Chunk.fx SEP_Y,
          Chunk.nm (fmtFixed4 k.y), Chunk.fx SEP_Z, Chunk.nm (fmtFixed4 k.z),
          Chunk.fx (lit "\" A=")] := by
    simp [joinChunks, Chunk.str, show lit "\" A=" = lit "\" " ++ lit "A=" by decide,
      List.append_assoc]
  rw [hjoin]
  apply chunks_avoid (lit "A" ++ lit "=\"") (by decide) (by decide)
  · intro c hc
    simp only [List.mem_cons, List.not_mem_nil, or_false] at hc
    rcases hc with h | h | h | h | h | h | h <;> subst h
    · exact (by decide : ¬ lit "A" ++ lit "=\"" <:+: RESP_PRE)
    · exact ⟨fmtFixed4_ne_nil _, fmtFixed4_mem_NumAlph _⟩
    · exact (by decide : ¬ lit "A" ++ lit "=\"" <:+: SEP_Y)
    · exact ⟨fmtFixed4_ne_nil _, fmtFixed4_mem_NumAlph _⟩
    · exact (by decide : ¬ lit "A" ++ lit "=\"" <:+: SEP_Z)
    · exact ⟨fmtFixed4_ne_nil _, fmtFixed4_mem_NumAlph _⟩
    · exact (by decide : ¬ lit "A" ++ lit "=\"" <:+: lit "\" A=")
  · simp [noFxFx]

theorem parse_attrB_render (ipoc : List Char) (k : RSI_CartesianCorrection) :
    parse_position_attr (renderResponse ipoc k) (lit "B") = round4 k.b := by
  have hsplit : renderResponse ipoc k
      = (RESP_PRE ++ (fmtFixed4 k.x ++ (SEP_Y ++ (fmtFixed4 k.y ++ (SEP_Z
          ++ (fmtFixed4 k.z ++ (SEP_A ++ (fmtFixed4 k.a ++ lit "\" "))))))))
        ++ ((lit "B" ++ lit "=\"")
          ++ (fmtFixed4 k.b ++ '"' :: (lit " C=\"" ++ fmtFixed4 k.c
            ++ SEP_IPOC ++ ipoc ++ RESP_SUF))) := by
    rw [renderResponse,
      show SEP_B = lit "\" " ++ (lit "B" ++ lit "=\"") by decide,
      show SEP_C = '"' :: lit " C=\"" by decide]
    simp [List.append_assoc]
  rw [hsplit]
  apply parse_attr_prepend _ _ _ _ (by decide)
  have hdl : ((RESP_PRE ++ (fmtFixed4 k.x ++ (SEP_Y ++ (fmtFixed4 k.y ++ (SEP_Z
          ++ (fmtFixed4 k.z ++ (SEP_A ++ (fmtFixed4 k.a ++ lit "\" "))))))))
        ++ (lit "B" ++ lit "=\"")).dropLast
      = (RESP_PRE ++ (fmtFixed4 k.x ++ (SEP_Y ++ (fmtFixed4 k.y ++ (SEP_Z
          ++ (fmtFixed4 k.z ++ (SEP_A ++ (fmtFixed4 k.a ++ lit "\" ")))))))) ++ lit "B=" := by
    rw [show lit "B" ++ lit "=\"" = lit "B=" ++ ['"'] by decide, dropLast_append_concat]
  rw [hdl]
  have hjoin : (RESP_PRE ++ (fmtFixed4 k.x ++ (SEP_Y ++ (fmtFixed4 k.y ++ (SEP_Z
          ++ (fmtFixed4 k.z ++ (SEP_A ++ (fmtFixed4 k.a ++ lit "\" ")))))))) ++ lit "B="
      = joinChunks [Chunk.fx RESP_PRE, Chunk.nm (fmtFixed4 k.x), Chunk.fx SEP_Y,
          Chunk.nm (fmtFixed4 k.y), Chunk.fx SEP_Z, Chunk.nm (fmtFixed4 k.z),
          Chunk.fx SEP_A, Chunk.nm (fmtFixed4 k.a), Chunk.fx (lit "\" B=")] := by
    simp [joinChunks, Chunk.str, show lit "\" B=" = lit "\" " ++ lit "B=" by decide,
      List.append_assoc]
  rw [hjoin]
  apply chunks_avoid (lit "B" ++ lit "=\"") (by decide) (by decide)
  · intro c hc
    simp only [List.mem_cons, List.not_mem_nil, or_false] at hc
    rcases hc with h | h | h | h | h | h | h | h | h <;> subst h
    · exact (by decide : ¬ lit "B" ++ lit "=\"" <:+: RESP_PRE)
    · exact ⟨fmtFixed4_ne_nil _, fmtFixed4_mem_NumAlph _⟩
    · exact (by decide : ¬ lit "B" ++ lit "=\"" <:+: SEP_Y)
    · exact ⟨fmtFixed4_ne_nil _, fmtFixed4_mem_NumAlph _⟩
    · exact (by decide : ¬ lit "B" ++ lit "=\"" <:+: SEP_Z)
    · exact ⟨fmtFixed4_ne_nil _, fmtFixed4_mem_NumAlph _⟩
    · exact (by decide : ¬ lit "B" ++ lit "=\"" <:+: SEP_A)
    · exact ⟨fmtFixed4_ne_nil _, fmtFixed4_mem_NumAlph _⟩
    · exact (by decide : ¬ lit "B" ++ lit "=\"" <:+: lit "\" B=")
  · simp [noFxFx]

theorem parse_attrC_render (ipoc : List Char) (k : RSI_CartesianCorrection) :
    parse_position_attr (renderResponse ipoc k) (lit "C") = round4 k.c := by
  have hsplit : renderResponse ipoc k
      = (RESP_PRE ++ (fmtFixed4 k.x ++ (SEP_Y ++ (fmtFixed4 k.y ++ (SEP_Z
          ++ (fmtFixed4 k.z ++ (SEP_A ++ (fmtFixed4 k.a ++ (SEP_B
          ++ (fmtFixed4 k.b ++ lit "\" "))))))))))
        ++ ((lit "C" ++ lit "=\"")
          ++ (fmtFixed4 k.c ++ '"' :: (lit " />\n" ++ TAG_IPOC_START
            ++ ipoc ++ RESP_SUF))) := by
    rw [renderResponse,
      show SEP_C = lit "\" " ++ (lit "C" ++ lit "=\"") by decide,
      show SEP_IPOC = '"' :: (lit " />\n" ++ TAG_IPOC_START) by decide]
    simp [List.append_assoc]
  rw [hsplit]
  apply parse_attr_prepend _ _ _ _ (by decide)
  have hdl : ((RESP_PRE ++ (fmtFixed4 k.x ++ (SEP_Y ++ (fmtFixed4 k.y ++ (SEP_Z
          ++ (fmtFixed4 k.z ++ (SEP_A ++ (fmtFixed4 k.a ++ (SEP_B
          ++ (fmtFixed4 k.b ++ lit "\" ")))))))))) ++ (lit "C" ++ lit "=\"")).dropLast
      = (RESP_PRE ++ (fmtFixed4 k.x ++ (SEP_Y ++ (fmtFixed4 k.y ++ (SEP_Z
          ++ (fmtFixed4 k.z ++ (SEP_A ++ (fmtFixed4 k.a ++ (SEP_B
          ++ (fmtFixed4 k.b ++ lit "\" ")))))))))) ++ lit "C=" := by
    rw [show lit "C" ++ lit "=\"" = lit "C=" ++ ['"'] by decide, dropLast_append_concat]
  rw [hdl]
  have hjoin : (RESP_PRE ++ (fmtFixed4 k.x ++ (SEP_Y ++ (fmtFixed4 k.y ++ (SEP_Z
          ++ (fmtFixed4 k.z ++ (SEP_A ++ (fmtFixed4 k.a ++ (SEP_B
          ++ (fmtFixed4 k.b ++ lit "\" ")))))))))) ++ lit "C="
      = joinChunks [Chunk.fx RESP_PRE, Chunk.nm (fmtFixed4 k.x), Chunk.fx SEP_Y,
          Chunk.nm (fmtFixed4 k.y), Chunk.fx SEP_Z, Chunk.nm (fmtFixed4 k.z),
          Chunk.fx SEP_A, Chunk.nm (fmtFixed4 k.a), Chunk.fx SEP_B,
          Chunk.nm (fmtFixed4 k.b), Chunk.fx (lit "\" C=")] := by
    simp [joinChunks, Chunk.str, show lit "\" C=" = lit "\" " ++ lit "C=" by decide,
      List.append_assoc]
  rw [hjoin]
  apply chunks_avoid (lit "C" ++ lit "=\"") (by decide) (by decide)
  · intro c hc
    simp only [List.mem_cons, List.not_mem_nil, or_false] at hc
    rcases hc with h | h | h | h | h | h | h | h | h | h | h <;> subst h
    · exact (by decide : ¬ lit "C" ++ lit "=\"" <:+: RESP_PRE)
    · exact ⟨fmtFixed4_ne_nil _, fmtFixed4_mem_NumAlph _⟩
    · exact (by decide : ¬ lit "C" ++ lit "=\"" <:+: SEP_Y)
    · exact ⟨fmtFixed4_ne_nil _, fmtFixed4_mem_NumAlph _⟩
    · exact (by decide : ¬ lit "C" ++ lit "=\"" <:+: SEP_Z)
    · exact ⟨fmtFixed4_ne_nil _, fmtFixed4_mem_NumAlph _⟩
    · exact (by decide : ¬ lit "C" ++ lit "=\"" <:+: SEP_A)
    · exact ⟨fmtFixed4_ne_nil _, fmtFixed4_mem_NumAlph _⟩
    · exact (by decide : ¬ lit "C" ++ lit "=\"" <:+: SEP_B)
    · exact ⟨fmtFixed4_ne_nil _, fmtFixed4_mem_NumAlph _⟩
    · exact (by decide : ¬ lit "C" ++ lit "=\"" <:+: lit "\" C=")
  · simp [noFxFx]

/-! ## Characterization of `process_packet` -/

theorem process_packet_drop (ctx : RSI_Context) (data : List Char) (ts tp te : ℕ) (so : Bool)
    (hext : extract_ipoc 32 data = none) :
    process_packet ctx data ts tp te so
      = ({ ctx with stats := if ctx.stats.is_connected = false
              then { ctx.stats with is_connected := true } else ctx.stats },
         (if ctx.stats.is_connected = false ∧ ctx.hasConnCb then [Event.conn true] else []),
         none) := by
  simp only [process_packet, hext]

theorem process_packet_reply_some (ctx : RSI_Context) (data : List Char) (ts tp te : ℕ)
    (so : Bool) (buf : List Char) (hext : extract_ipoc 32 data = some buf) :
    (process_packet ctx data ts tp te so).2.2 = generate_response buf ctx.correction := by
  simp only [process_packet, hext]

theorem process_packet_correction (ctx : RSI_Context) (data : List Char) (ts tp te : ℕ)
    (so : Bool) :
    (process_packet ctx data ts tp te so).1.correction = ctx.correction := by
  cases hext : extract_ipoc 32 data with
  | none => simp only [process_packet, hext]
  | some buf => simp only [process_packet, hext]

theorem process_packet_stats_some (ctx : RSI_Context) (data : List Char) (ts tp te : ℕ)
    (so : Bool) (buf : List Char) (hext : extract_ipoc 32 data = some buf) :
    (process_packet ctx data ts tp te so).1.stats
      = stats_update
          (if ctx.stats.is_connected = false
            then { ctx.stats with is_connected := true } else ctx.stats)
          (generate_response buf ctx.correction).isSome
          (((te - ts : ℕ) : ℚ) / 1000) te := by
  simp only [process_packet, hext]

theorem process_packet_sent (ctx : RSI_Context) (data : List Char) (ts tp te : ℕ) (so : Bool) :
    (process_packet ctx data ts tp te so).1.stats.packets_sent
      = ctx.stats.packets_sent
        + (if (process_packet ctx data ts tp te so).2.2.isSome then 1 else 0) := by
  cases hext : extract_ipoc 32 data with
  | none =>
    rw [process_packet_drop ctx data ts tp te so hext]
    split_ifs <;> simp_all
  | some buf =>
    rw [process_packet_stats_some ctx data ts tp te so buf hext,
      process_packet_reply_some ctx data ts tp te so buf hext]
    simp only [stats_update]
    split_ifs <;> simp_all

theorem process_packet_connected (ctx : RSI_Context) (data : List Char) (ts tp te : ℕ)
    (so : Bool) :
    (process_packet ctx data ts tp te so).1.stats.is_connected = true := by
  cases hext : extract_ipoc 32 data with
  | none =>
    rw [process_packet_drop ctx data ts tp te so hext]
    cases hb : ctx.stats.is_connected <;> simp [hb]
  | some buf =>
    rw [process_packet_stats_some ctx data ts tp te so buf hext]
    simp only [stats_update]
    cases hb : ctx.stats.is_connected <;> simp [hb]

theorem process_packet_conn_event (ctx : RSI_Context) (data : List Char) (ts tp te : ℕ)
    (so : Bool) :
    (Event.conn true ∈ (process_packet ctx data ts tp te so).2.1
      ↔ ctx.stats.is_connected = false ∧ ctx.hasConnCb) := by
  cases hext : extract_ipoc 32 data with
  | none =>
    rw [process_packet_drop ctx data ts tp te so hext]
    split_ifs <;> simp_all
  | some buf =>
    simp only [process_packet, hext]
    split_ifs <;> simp_all

theorem parse_joint_none_of_no_aipos (data : List Char)
    (hA : strstr TAG_AIPOS_START data = none) : parse_joint_position data = none := by
  simp only [parse_joint_position, hA]

theorem process_packet_no_aipos (ctx : RSI_Context) (data : List Char) (ts tp te : ℕ)
    (so : Bool) (buf : List Char)
    (hA : strstr TAG_AIPOS_START data = none)
    (hext : extract_ipoc 32 data = some buf) :
    (process_packet ctx data ts tp te so).1.joints
        = { ctx.joints with ipoc := ipocValue32 buf } ∧
    (process_packet ctx data ts tp te so).2.1
        = (if ctx.stats.is_connected = false ∧ ctx.hasConnCb then [Event.conn true] else []) := by
  have hpj := parse_joint_none_of_no_aipos data hA
  constructor
  · simp only [process_packet, hext, hpj]
  · simp only [process_packet, hext, hpj]
    simp

/-! ## Statistics invariant and correction stickiness across cycles -/

theorem stats_update_inv (s : RSI_Statistics) (b : Bool) (t : ℚ) (te : ℕ)
    (ht : 0 < t) (h : StatsInv s) : StatsInv (stats_update s b t te) := by
  obtain ⟨hmin, hzero, hind⟩ := h
  have hsub : ((s.packets_received + 1 : ℕ) : ℚ) - 1 = (s.packets_received : ℚ) := by
    push_cast; ring
  refine ⟨?_, ?_, ?_⟩
  · simp only [stats_update]
    split_ifs with h1
    · exact ht
    · exact hmin
  · intro habs
    simp only [stats_update] at habs
    omega
  · intro _
    simp only [stats_update, hsub]
    by_cases hn : s.packets_received = 0
    · obtain ⟨h9, h0⟩ := hzero hn
      rw [h9, h0, hn]
      norm_num
      split_ifs <;> constructor <;> nlinarith [ht]
    · have hn1 : 1 ≤ s.packets_received := Nat.one_le_iff_ne_zero.mpr hn
      obtain ⟨hma, ham⟩ := hind hn1
      have hnq : (0:ℚ) < ((s.packets_received + 1 : ℕ) : ℚ) := by positivity
      have hnn : (0:ℚ) ≤ (s.packets_received : ℚ) := Nat.cast_nonneg _
      have hminne : ¬ s.min_response_time_ms = 0 := ne_of_gt hmin
      have hcst : ((s.packets_received + 1 : ℕ) : ℚ) = (s.packets_received : ℚ) + 1 := by
        push_cast; ring
      constructor
      · rw [le_div_iff₀ hnq, hcst]
        by_cases hlt : t < s.min_response_time_ms
        · rw [if_pos (Or.inl hlt)]
          have hta : t ≤ s.avg_response_time_ms := le_of_lt (lt_of_lt_of_le hlt hma)
          nlinarith [hta, hnn]
        · rw [if_neg (by simp [hminne, hlt])]
          have hmt : s.min_response_time_ms ≤ t := le_of_not_lt hlt
          nlinarith [hma, hmt, hnn]
      · rw [div_le_iff₀ hnq, hcst]
        by_cases hlt : s.max_response_time_ms < t
        · rw [if_pos hlt]
          have hat : s.avg_response_time_ms ≤ t := le_of_lt (lt_of_le_of_lt ham hlt)
          nlinarith [hat, hnn]
        · rw [if_neg hlt]
          have htm : t ≤ s.max_response_time_ms := le_of_not_lt hlt
          nlinarith [ham, htm, hnn]

theorem StatsInv_conn (s : RSI_Statistics) :
    StatsInv (if s.is_connected = false then { s with is_connected := true } else s)
      ↔ StatsInv s := by
  split_ifs <;> simp [StatsInv]

theorem runPackets_statsInv (ps : List PktIn) : ∀ ctx : RSI_Context,
    StatsInv ctx.stats → (∀ p ∈ ps, p.tStart < p.tEnd) →
    StatsInv (runPackets ctx ps).1.stats := by
  induction ps with
  | nil =>
    intro ctx h _
    simpa [runPackets] using h
  | cons p ps ih =>
    intro ctx h hpos
    have hstep : StatsInv (process_packet ctx p.data p.tStart p.tP p.tEnd p.sendOk).1.stats := by
      cases hext : extract_ipoc 32 p.data with
      | none =>
        rw [process_packet_drop _ _ _ _ _ _ hext]
        simpa using (StatsInv_conn ctx.stats).mpr h
      | some buf =>
        rw [process_packet_stats_some _ _ _ _ _ _ _ hext]
        apply stats_update_inv
        · have hp := hpos p (List.mem_cons_self _ _)
          have h1 : (1:ℚ) ≤ ((p.tEnd - p.tStart : ℕ) : ℚ) := by
            exact_mod_cast Nat.one_le_iff_ne_zero.mpr (by omega)
          linarith
        · exact (StatsInv_conn ctx.stats).mpr h
    simp only [runPackets]
    exact ih _ hstep (fun q hq => hpos q (List.mem_cons_of_mem _ hq))

theorem runPackets_correction (ps : List PktIn) : ∀ ctx : RSI_Context,
    (runPackets ctx ps).1.correction = ctx.correction ∧
    ∀ r ∈ (runPackets ctx ps).2, ∃ buf, generate_response buf ctx.correction = some r := by
  induction ps with
  | nil =>
    intro ctx
    exact ⟨rfl, by simp [runPackets]⟩
  | cons p ps ih =>
    intro ctx
    obtain ⟨ih1, ih2⟩ := ih (process_packet ctx p.data p.tStart p.tP p.tEnd p.sendOk).1
    have hc := process_packet_correction ctx p.data p.tStart p.tP p.tEnd p.sendOk
    constructor
    · simp only [runPackets]
      rw [ih1, hc]
    · intro r hr
      simp only [runPackets, List.mem_append] at hr
      rcases hr with hr1 | hr2
      · cases hext : extract_ipoc 32 p.data with
        | none =>
          rw [process_packet_drop _ _ _ _ _ _ hext] at hr1
          simp at hr1
        | some buf =>
          rw [process_packet_reply_some _ _ _ _ _ _ buf hext] at hr1
          cases hgen : generate_response buf ctx.correction with
          | none => rw [hgen] at hr1; simp at hr1
          | some x =>
            rw [hgen] at hr1
            simp only [List.mem_singleton] at hr1
            exact ⟨buf, by rw [hgen, hr1]⟩
      · obtain ⟨buf, hbuf⟩ := ih2 r hr2
        rw [hc] at hbuf
        exact ⟨buf, hbuf⟩

theorem generate_response_some (mid : List Char) (k : RSI_CartesianCorrection)
    (reply : List Char) (h : generate_response mid k = some reply) :
    reply = renderResponse mid k := by
  simp only [generate_response] at h
  split_ifs at h with hf
  exact (Option.some_inj.mp h).symm

/-! ## Claims -/

/-- C1 (corrected): for every inbound datagram whose `<IPOC>` body — the
bytes between the first `<IPOC>` and the following first `</IPOC>` — is at
most 31 bytes, the `<IPOC>` body of the reply built by `generate_response`
equals the inbound body byte-for-byte: `extract_ipoc` returns exactly those
bytes and extracting from the rendered reply returns them again.  Bodies of
32 bytes or more are truncated to 31 bytes by the fixed extraction buffer,
so the original unconditional claim fails (see the counterexample). -/
theorem C1_ipoc_echo (pre mid rest : List Char) (k : RSI_CartesianCorrection)
    (reply : List Char)
    (hpre : ¬ TAG_IPOC_START <:+: (pre ++ TAG_IPOC_START).dropLast)
    (hmid : ¬ TAG_IPOC_END <:+: mid)
    (hlen : mid.length < 32)
    (hrep : generate_response mid k = some reply) :
    extract_ipoc 32 (pre ++ (TAG_IPOC_START ++ (mid ++ (TAG_IPOC_END ++ rest)))) = some mid ∧
    extract_ipoc 32 reply = some mid := by
  constructor
  · exact extract_ipoc_decomp pre mid rest hpre hmid hlen
  · rw [generate_response_some mid k reply hrep]
    exact extract_renderResponse k mid hmid hlen

/-- C1 counterexample: a 32-byte `<IPOC>` body is truncated to 31 bytes by
`extract_ipoc`, so the reply echo is not byte-for-byte equal to the inbound
body. -/
theorem C1_counterexample :
    extract_ipoc 32 (TAG_IPOC_START ++ (List.replicate 32 'a' ++ TAG_IPOC_END))
        = some (List.replicate 31 'a') ∧
    (process_packet ctxReady (TAG_IPOC_START ++ (List.replicate 32 'a' ++ TAG_IPOC_END))
        0 0 0 true).2.2 = some (renderResponse (List.replicate 31 'a') zeroCorrection) ∧
    extract_ipoc 32 (renderResponse (List.replicate 31 'a') zeroCorrection)
        = some (List.replicate 31 'a') ∧
    List.replicate 31 'a' ≠ List.replicate 32 'a' := by
  refine ⟨by decide, ?_, by decide, by decide⟩
  decide

/-- C1 witness: the echo theorem evaluated on a concrete frame. -/
theorem C1_witness :
    extract_ipoc 32 (lit "A" ++ (TAG_IPOC_START ++ (lit "0001234" ++ (TAG_IPOC_END ++ lit "B"))))
        = some (lit "0001234") ∧
    extract_ipoc 32 (renderResponse (lit "0001234") zeroCorrection) = some (lit "0001234") :=
  C1_ipoc_echo (lit "A") (lit "0001234") (lit "B") zeroCorrection
    (renderResponse (lit "0001234") zeroCorrection)
    (by decide) (by decide) (by decide) (by decide)

/-- C6 (corrected): round-trip law at the decimal level — rendering a reply
for correction `C` and IPOC body `I` (at most 31 bytes, no embedded
`</IPOC>`, reply within the 512-byte buffer) and parsing that reply with the
codec's attribute reader and `extract_ipoc` yields each field of `C`
rounded to four decimal places (`round4`) and the IPOC bytes `I`
unchanged.  For IPOC bodies of 32 bytes or more, extraction truncates and
the law fails (see the counterexample). -/
theorem C6_roundtrip (mid : List Char) (k : RSI_CartesianCorrection) (reply : List Char)
    (hmid : ¬ TAG_IPOC_END <:+: mid) (hlen : mid.length < 32)
    (hrep : generate_response mid k = some reply) :
    parse_position_attr reply (lit "X") = round4 k.x ∧
    parse_position_attr reply (lit "Y") = round4 k.y ∧
    parse_position_attr reply (lit "Z") = round4 k.z ∧
    parse_position_attr reply (lit "A") = round4 k.a ∧
    parse_position_attr reply (lit "B") = round4 k.b ∧
    parse_position_attr reply (lit "C") = round4 k.c ∧
    extract_ipoc 32 reply = some mid := by
  rw [generate_response_some mid k reply hrep]
  exact ⟨parse_attrX_render mid k, parse_attrY_render mid k, parse_attrZ_render mid k,
    parse_attrA_render mid k, parse_attrB_render mid k, parse_attrC_render mid k,
    extract_renderResponse k mid hmid hlen⟩

/-- C6 counterexample: a 40-byte IPOC string is not recovered by the
parse-render-parse pipeline; extraction truncates it to 31 bytes. -/
theorem C6_counterexample :
    extract_ipoc 32 (TAG_IPOC_START ++ (List.replicate 40 'b' ++ TAG_IPOC_END))
        = some (List.replicate 31 'b') ∧
    extract_ipoc 32 (renderResponse (List.replicate 31 'b') zeroCorrection)
        = some (List.replicate 31 'b') ∧
    List.replicate 31 'b' ≠ List.replicate 40 'b' := by
  refine ⟨by decide, by decide, by decide⟩

/-- C6 witness: the round-trip theorem evaluated on correction
`(1.25, 0, 0, 0, 0, -2)` and IPOC `42`. -/
theorem C6_witness :
    parse_position_attr (renderResponse (lit "42") ⟨5/4, 0, 0, 0, 0, -2⟩) (lit "X")
        = round4 (5/4) ∧
    parse_position_attr (renderResponse (lit "42") ⟨5/4, 0, 0, 0, 0, -2⟩) (lit "Y")
        = round4 0 ∧
    parse_position_attr (renderResponse (lit "42") ⟨5/4, 0, 0, 0, 0, -2⟩) (lit "Z")
        = round4 0 ∧
    parse_position_attr (renderResponse (lit "42") ⟨5/4, 0, 0, 0, 0, -2⟩) (lit "A")
        = round4 0 ∧
    parse_position_attr (renderResponse (lit "42") ⟨5/4, 0, 0, 0, 0, -2⟩) (lit "B")
        = round4 0 ∧
    parse_position_attr (renderResponse (lit "42") ⟨5/4, 0, 0, 0, 0, -2⟩) (lit "C")
        = round4 (-2) ∧
    extract_ipoc 32 (renderResponse (lit "42") ⟨5/4, 0, 0, 0, 0, -2⟩) = some (lit "42") :=
  C6_roundtrip (lit "42") ⟨5/4, 0, 0, 0, 0, -2⟩
    (renderResponse (lit "42") ⟨5/4, 0, 0, 0, 0, -2⟩) (by decide) (by decide) (by decide)

/-- C2 (corrected): an inbound datagram with no extractable `<IPOC>`
produces no reply, advances no statistics counter and leaves the positions
and the correction untouched — but, contrary to the original claim, it does
flip `is_connected` to true and fire the connection callback when the link
was previously down, because `process_packet` updates the connection state
before validating the IPOC. -/
theorem C2_drop_frame (ctx : RSI_Context) (data : List Char) (ts tp te : ℕ) (so : Bool)
    (hext : extract_ipoc 32 data = none) :
    process_packet ctx data ts tp te so
      = ({ ctx with stats := if ctx.stats.is_connected = false
              then { ctx.stats with is_connected := true } else ctx.stats },
         (if ctx.stats.is_connected = false ∧ ctx.hasConnCb then [Event.conn true] else []),
         none) :=
  process_packet_drop ctx data ts tp te so hext

/-- C2 counterexample: a garbage datagram (no `<IPOC>`) still flips
`is_connected` and fires the connection callback on a freshly started
context, contradicting the claim of no state update. -/
theorem C2_counterexample :
    extract_ipoc 32 (lit "hello") = none ∧
    ctxReady.stats.is_connected = false ∧ ctxReady.hasConnCb = true ∧
    (process_packet ctxReady (lit "hello") 0 0 0 true).1.stats.is_connected = true ∧
    (process_packet ctxReady (lit "hello") 0 0 0 true).2.1 = [Event.conn true] ∧
    (process_packet ctxReady (lit "hello") 0 0 0 true).2.2 = none := by
  decide

/-- C2 witness: the drop theorem evaluated on a concrete unparseable
datagram and a context without callbacks. -/
theorem C2_witness :
    extract_ipoc 32 (lit "xyz") = none ∧
    process_packet ctxInit (lit "xyz") 1 2 3 true
      = ({ ctxInit with stats := { ctxInit.stats with is_connected := true } }, [], none) :=
  ⟨by decide, by rw [C2_drop_frame ctxInit (lit "xyz") 1 2 3 true (by decide)]; decide⟩

/-- C3 (corrected): `packets_sent` is incremented exactly when a response
was generated (`response_len > 0`), not when `sendto` succeeds — the code
never inspects `sendto`'s result, so processing is identical for a
successful and a failing `sendto`. -/
theorem C3_sent_iff_generated (ctx : RSI_Context) (data : List Char) (ts tp te : ℕ)
    (so : Bool) :
    (process_packet ctx data ts tp te so).1.stats.packets_sent
      = ctx.stats.packets_sent
        + (if (process_packet ctx data ts tp te so).2.2.isSome then 1 else 0) ∧
    process_packet ctx data ts tp te true = process_packet ctx data ts tp te false :=
  ⟨process_packet_sent ctx data ts tp te so, rfl⟩

/-- C3 counterexample: with a failing `sendto`, `packets_sent` is
incremented anyway, contradicting the claim that it is unchanged when
`sendto` fails. -/
theorem C3_counterexample :
    (process_packet ctxReady frameFull 0 0 0 false).2.2.isSome = true ∧
    ctxReady.stats.packets_sent = 0 ∧
    (process_packet ctxReady frameFull 0 0 0 false).1.stats.packets_sent = 1 := by
  decide

/-- C4 (corrected): `RSI_GetCartesianPosition`, `RSI_GetJointPosition` and
`RSI_SetCartesianCorrection` fail without side effects whenever the library
is not running; `RSI_GetStatistics`, however, checks only `initialized` and
therefore succeeds before `Start` and after `Stop`, contradicting the
original "no accessor succeeds" claim. -/
theorem C4_lifecycle (ctx : RSI_Context) (p : Bool) (k : RSI_CartesianCorrection)
    (hnr : ctx.running = false) :
    ((RSI_GetCartesianPosition ctx p).1 ≠ RSI_SUCCESS
      ∧ (RSI_GetCartesianPosition ctx p).2.1 = ctx
      ∧ (RSI_GetCartesianPosition ctx p).2.2 = none) ∧
    ((RSI_GetJointPosition ctx p).1 ≠ RSI_SUCCESS
      ∧ (RSI_GetJointPosition ctx p).2.1 = ctx
      ∧ (RSI_GetJointPosition ctx p).2.2 = none) ∧
    ((RSI_SetCartesianCorrection ctx (some k)).1 ≠ RSI_SUCCESS
      ∧ (RSI_SetCartesianCorrection ctx (some k)).2 = ctx) ∧
    (ctx.initialized = false →
      (RSI_GetStatistics ctx p).1 = RSI_ERROR_INIT_FAILED
        ∧ (RSI_GetStatistics ctx p).2.1 = ctx ∧ (RSI_GetStatistics ctx p).2.2 = none) ∧
    (ctx.initialized = true → p = true → (RSI_GetStatistics ctx p).1 = RSI_SUCCESS) := by
  cases hi : ctx.initialized <;> cases p <;>
    simp [RSI_GetCartesianPosition, RSI_GetJointPosition, RSI_SetCartesianCorrection,
      RSI_GetStatistics, hi, hnr]

/-- C4 counterexample: immediately after `Init` (before `Start`),
`RSI_GetStatistics` succeeds, contradicting "no accessor succeeds before
Start". -/
theorem C4_counterexample :
    ctxInit.initialized = true ∧ ctxInit.running = false ∧
    (RSI_GetStatistics ctxInit true).1 = RSI_SUCCESS ∧
    (RSI_GetStatistics ctxInit true).2.2 = some ctxInit.stats := by
  decide

/-- C4 witness: the lifecycle theorem evaluated on the context right after
`Init`. -/
theorem C4_witness :
    ((RSI_GetCartesianPosition ctxInit true).1 ≠ RSI_SUCCESS
      ∧ (RSI_GetCartesianPosition ctxInit true).2.1 = ctxInit
      ∧ (RSI_GetCartesianPosition ctxInit true).2.2 = none) ∧
    ((RSI_GetJointPosition ctxInit true).1 ≠ RSI_SUCCESS
      ∧ (RSI_GetJointPosition ctxInit true).2.1 = ctxInit
      ∧ (RSI_GetJointPosition ctxInit true).2.2 = none) ∧
    ((RSI_SetCartesianCorrection ctxInit (some zeroCorrection)).1 ≠ RSI_SUCCESS
      ∧ (RSI_SetCartesianCorrection ctxInit (some zeroCorrection)).2 = ctxInit) ∧
    (ctxInit.initialized = false →
      (RSI_GetStatistics ctxInit true).1 = RSI_ERROR_INIT_FAILED
        ∧ (RSI_GetStatistics ctxInit true).2.1 = ctxInit
        ∧ (RSI_GetStatistics ctxInit true).2.2 = none) ∧
    (ctxInit.initialized = true → true = true →
      (RSI_GetStatistics ctxInit true).1 = RSI_SUCCESS) :=
  C4_lifecycle ctxInit true zeroCorrection (by decide)

/-- C5 (corrected): starting from the `Init` statistics (min seeded with
9999, max and received zero), after at least one processed packet every
snapshot satisfies `min ≤ avg ≤ max`, provided every per-packet processing
time is strictly positive.  With a zero processing time the
`min == 0.0` re-seed clause in the source can push `min` above `avg` (see
the counterexample). -/
theorem C5_min_avg_max (ctx : RSI_Context) (ps : List PktIn)
    (hmin : ctx.stats.min_response_time_ms = 9999)
    (hmax : ctx.stats.max_response_time_ms = 0)
    (hrec0 : ctx.stats.packets_received = 0)
    (hpos : ∀ p ∈ ps, p.tStart < p.tEnd)
    (hrec : 1 ≤ (runPackets ctx ps).1.stats.packets_received) :
    (runPackets ctx ps).1.stats.min_response_time_ms
        ≤ (runPackets ctx ps).1.stats.avg_response_time_ms ∧
    (runPackets ctx ps).1.stats.avg_response_time_ms
        ≤ (runPackets ctx ps).1.stats.max_response_time_ms := by
  have hinv : StatsInv ctx.stats := by
    refine ⟨by rw [hmin]; norm_num, fun _ => ⟨hmin, hmax⟩, ?_⟩
    intro hge
    rw [hrec0] at hge
    omega
  exact (runPackets_statsInv ps ctx hinv hpos).2.2 hrec

/-- C5 counterexample: a packet with processing time 0 ms followed by one
with 10 ms leaves `min = 10 > avg = 5`, because the `min == 0.0` clause
re-seeds the minimum. -/
theorem C5_counterexample :
    (runPackets ctxReady
        [⟨lit "<IPOC>1</IPOC>", 0, 0, 0, true⟩,
         ⟨lit "<IPOC>1</IPOC>", 0, 0, 10000, true⟩]).1.stats.min_response_time_ms = 10 ∧
    (runPackets ctxReady
        [⟨lit "<IPOC>1</IPOC>", 0, 0, 0, true⟩,
         ⟨lit "<IPOC>1</IPOC>", 0, 0, 10000, true⟩]).1.stats.avg_response_time_ms = 5 ∧
    ¬ ((runPackets ctxReady
        [⟨lit "<IPOC>1</IPOC>", 0, 0, 0, true⟩,
         ⟨lit "<IPOC>1</IPOC>", 0, 0, 10000, true⟩]).1.stats.min_response_time_ms
      ≤ (runPackets ctxReady
        [⟨lit "<IPOC>1</IPOC>", 0, 0, 0, true⟩,
         ⟨lit "<IPOC>1</IPOC>", 0, 0, 10000, true⟩]).1.stats.avg_response_time_ms) := by
  refine ⟨by decide, by decide, by decide⟩

/-- C5 witness: the invariant theorem evaluated on one packet taking
2 ms. -/
theorem C5_witness :
    (runPackets ctxReady
        [⟨lit "<IPOC>2</IPOC>", 0, 0, 2000, true⟩]).1.stats.min_response_time_ms
      ≤ (runPackets ctxReady
        [⟨lit "<IPOC>2</IPOC>", 0, 0, 2000, true⟩]).1.stats.avg_response_time_ms ∧
    (runPackets ctxReady
        [⟨lit "<IPOC>2</IPOC>", 0, 0, 2000, true⟩]).1.stats.avg_response_time_ms
      ≤ (runPackets ctxReady
        [⟨lit "<IPOC>2</IPOC>", 0, 0, 2000, true⟩]).1.stats.max_response_time_ms :=
  C5_min_avg_max ctxReady [⟨lit "<IPOC>2</IPOC>", 0, 0, 2000, true⟩]
    (by decide) (by decide) (by decide) (by decide) (by decide)

/-- C7 (corrected): `is_connected` flips to true and the connection
callback fires at the first RECEIVED datagram — whether or not it parses —
not at the first successful parse: after any `process_packet` call the flag
is true, and a `conn true` event is emitted exactly when the link was
previously down and a callback is bound. -/
theorem C7_conn_on_receive (ctx : RSI_Context) (data : List Char) (ts tp te : ℕ)
    (so : Bool) :
    (process_packet ctx data ts tp te so).1.stats.is_connected = true ∧
    (Event.conn true ∈ (process_packet ctx data ts tp te so).2.1
      ↔ ctx.stats.is_connected = false ∧ ctx.hasConnCb) :=
  ⟨process_packet_connected ctx data ts tp te so,
   process_packet_conn_event ctx data ts tp te so⟩

/-- C7 counterexample: a datagram that does not parse (no `<IPOC>`) flips
`is_connected` and fires the connection callback, contradicting "a datagram
that does not parse successfully never flips `is_connected`". -/
theorem C7_counterexample :
    extract_ipoc 32 (lit "garbage") = none ∧
    ctxReady.stats.is_connected = false ∧
    (process_packet ctxReady (lit "garbage") 0 0 0 true).1.stats.is_connected = true ∧
    (process_packet ctxReady (lit "garbage") 0 0 0 true).2.1 = [Event.conn true] := by
  decide

/-- C8 (confirmed): the stored correction is sticky — all zeros at `Init`,
wholly overwritten by `RSI_SetCartesianCorrection`, never modified by
packet processing, and every emitted reply is rendered from the last value
set (in particular a zero correction renders `0.0000` attributes). -/
theorem C8_sticky (ctx : RSI_Context) (k : RSI_CartesianCorrection) (ps : List PktIn)
    (hinit : ctx.initialized = true) (hrun : ctx.running = true) :
    (RSI_Init emptyContext none).2.correction = zeroCorrection ∧
    (RSI_SetCartesianCorrection ctx (some k)).2.correction = k ∧
    (runPackets (RSI_SetCartesianCorrection ctx (some k)).2 ps).1.correction = k ∧
    (∀ r ∈ (runPackets (RSI_SetCartesianCorrection ctx (some k)).2 ps).2,
        ∃ buf, generate_response buf k = some r) ∧
    fmtFixed4 0 = lit "0.0000" := by
  have hset : (RSI_SetCartesianCorrection ctx (some k)).2.correction = k := by
    simp [RSI_SetCartesianCorrection, hinit, hrun]
  obtain ⟨h1, h2⟩ := runPackets_correction ps (RSI_SetCartesianCorrection ctx (some k)).2
  refine ⟨rfl, hset, by rw [h1, hset], ?_, by decide⟩
  intro r hr
  obtain ⟨buf, hbuf⟩ := h2 r hr
  rw [hset] at hbuf
  exact ⟨buf, hbuf⟩

/-- C8 witness: stickiness evaluated with correction `(1, 2, 3, 0, 0, -5)`
across one full frame. -/
theorem C8_witness :
    (RSI_Init emptyContext none).2.correction = zeroCorrection ∧
    (RSI_SetCartesianCorrection ctxReady (some ⟨1, 2, 3, 0, 0, -5⟩)).2.correction
        = (⟨1, 2, 3, 0, 0, -5⟩ : RSI_CartesianCorrection) ∧
    (runPackets (RSI_SetCartesianCorrection ctxReady (some ⟨1, 2, 3, 0, 0, -5⟩)).2
        [⟨frameFull, 0, 0, 0, true⟩]).1.correction
        = (⟨1, 2, 3, 0, 0, -5⟩ : RSI_CartesianCorrection) ∧
    (∀ r ∈ (runPackets (RSI_SetCartesianCorrection ctxReady (some ⟨1, 2, 3, 0, 0, -5⟩)).2
        [⟨frameFull, 0, 0, 0, true⟩]).2,
        ∃ buf, generate_response buf ⟨1, 2, 3, 0, 0, -5⟩ = some r) ∧
    fmtFixed4 0 = lit "0.0000" :=
  C8_sticky ctxReady ⟨1, 2, 3, 0, 0, -5⟩ [⟨frameFull, 0, 0, 0, true⟩]
    (by decide) (by decide)

/-- C9 (corrected): for a frame with `<RIst>` and a parseable `<IPOC>` but
no `<AIPos>`, a reply is still rendered from the echoed IPOC and the stored
correction, the joint axes and timestamp are unchanged and the data
callback is not invoked — but, contrary to the original claim, the `ipoc`
field of the stored joint buffer IS overwritten with the numeric IPOC
value. -/
theorem C9_no_aipos_frame (ctx : RSI_Context) (data : List Char) (ts tp te : ℕ)
    (so : Bool) (buf : List Char)
    (hR : (strstr TAG_RIST_START data).isSome = true)
    (hA : strstr TAG_AIPOS_START data = none)
    (hext : extract_ipoc 32 data = some buf) :
    (process_packet ctx data ts tp te so).2.2 = generate_response buf ctx.correction ∧
    (process_packet ctx data ts tp te so).1.joints
        = { ctx.joints with ipoc := ipocValue32 buf } ∧
    (process_packet ctx data ts tp te so).2.1
        = (if ctx.stats.is_connected = false ∧ ctx.hasConnCb then [Event.conn true]
           else []) := by
  obtain ⟨hj, he⟩ := process_packet_no_aipos ctx data ts tp te so buf hA hext
  exact ⟨process_packet_reply_some ctx data ts tp te so buf hext, hj, he⟩

/-- C9 counterexample: processing a frame with `<RIst>` and `<IPOC>7` but
no `<AIPos>` overwrites the joint buffer's `ipoc` field (0 becomes 7),
contradicting "no field of the stored joint-position buffer is
modified". -/
theorem C9_counterexample :
    (strstr TAG_RIST_START frameNoAipos).isSome = true ∧
    strstr TAG_AIPOS_START frameNoAipos = none ∧
    extract_ipoc 32 frameNoAipos = some (lit "7") ∧
    ctxReady.joints.ipoc = 0 ∧
    (process_packet ctxReady frameNoAipos 0 0 0 true).1.joints.ipoc = 7 := by
  decide

/-- C9 witness: the no-AIPos theorem evaluated on a concrete frame. -/
theorem C9_witness :
    (process_packet ctxReady frameNoAipos 0 0 0 true).2.2
        = generate_response (lit "7") ctxReady.correction ∧
    (process_packet ctxReady frameNoAipos 0 0 0 true).1.joints
        = { ctxReady.joints with ipoc := ipocValue32 (lit "7") } ∧
    (process_packet ctxReady frameNoAipos 0 0 0 true).2.1
        = (if ctxReady.stats.is_connected = false ∧ ctxReady.hasConnCb
           then [Event.conn true] else []) :=
  C9_no_aipos_frame ctxReady frameNoAipos 0 0 0 true (lit "7")
    (by decide) (by decide) (by decide)

/-- C10 (confirmed): with the lifecycle preconditions satisfied, each
accessor called with a NULL pointer returns `RSI_ERROR_INVALID_PARAM` and
leaves the context unchanged. -/
theorem C10_null_params (ctx : RSI_Context)
    (hi : ctx.initialized = true) (hr : ctx.running = true) :
    RSI_GetCartesianPosition ctx false = (RSI_ERROR_INVALID_PARAM, ctx, none) ∧
    RSI_GetJointPosition ctx false = (RSI_ERROR_INVALID_PARAM, ctx, none) ∧
    RSI_SetCartesianCorrection ctx none = (RSI_ERROR_INVALID_PARAM, ctx) ∧
    RSI_GetStatistics ctx false = (RSI_ERROR_INVALID_PARAM, ctx, none) := by
  simp [RSI_GetCartesianPosition, RSI_GetJointPosition, RSI_SetCartesianCorrection,
    RSI_GetStatistics, hi, hr]

/-- C10 witness: NULL-pointer behaviour evaluated on a running context. -/
theorem C10_witness :
    RSI_GetCartesianPosition ctxReady false = (RSI_ERROR_INVALID_PARAM, ctxReady, none) ∧
    RSI_GetJointPosition ctxReady false = (RSI_ERROR_INVALID_PARAM, ctxReady, none) ∧
    RSI_SetCartesianCorrection ctxReady none = (RSI_ERROR_INVALID_PARAM, ctxReady) ∧
    RSI_GetStatistics ctxReady false = (RSI_ERROR_INVALID_PARAM, ctxReady, none) :=
  C10_null_params ctxReady (by decide) (by decide)

end KukaRSI
